import Mathlib

/-!
# Per-thread lifecycle coordinator (`php_thread.go`)

A shallow embedding of `php_thread.go`: the thread record, the mode switch
(`setActive` / `setInactive`), the pinning helpers and the four boundary callbacks
that the native side calls.

Conventions of the embedding.

* A Go string is its sequence of bytes (`List UInt8`).
* A pointer is modelled by what it points to; `nil` is `none`.  Where it matters
  (`Pin`), a pointer also carries whether it points into the Go heap.
* The hooks handed to `setActive` come from mode-specific code outside this file.
  They are identified by a `HookId`; what a hook does to the thread record it
  receives is given by a `HookEnv`.  The only function value built in this file,
  the closure of `setActive`, is the constructor `HookFn.indirect`.
* Every callback returns a `Step`: the thread record it leaves behind, the hook
  invocations it made (in order, each with the record as the hook saw it on
  entry) and how the callback completed.
-/

namespace FrankenPHP

/-- Modelled from the spec: the lifecycle states of the state handler (`stateID`,
declared outside `php_thread.go`): `Inactive`, `Ready`, `Active`, `ShuttingDown`, `Done`. -/
inductive stateID where
  | stateInactive
  | stateReady
  | stateActive
  | stateShuttingDown
  | stateDone
deriving DecidableEq, Repr

open stateID

/-- Modelled from the spec: the state handler (`threadStateHandler`, declared outside
`php_thread.go`) holds the single authoritative state of a thread. -/
structure threadStateHandler where
  currentState : stateID
deriving DecidableEq, Repr

/-- Modelled from the spec: `is(candidateState)`, the non-blocking check of the state handler. -/
def threadStateHandler.is (h : threadStateHandler) (s : stateID) : Bool :=
  decide (h.currentState = s)

/-- Modelled from the spec: `set(newState)` of the state handler transitions unconditionally. -/
def threadStateHandler.set (_h : threadStateHandler) (s : stateID) : threadStateHandler :=
  { currentState := s }

/-- Identity of a hook supplied by mode-specific code. -/
abbrev HookId := Nat

/-- Identity of a request object (`*http.Request`). -/
abbrev Request := Nat

/-- An entry of `runtime.Pinner`: the object whose address was pinned. -/
inductive Pinned where
  | stringData (bytes : List UInt8)
  | object (addr : Nat)
deriving DecidableEq, Repr

/-- A function value of type `func(*phpThread)` or `func(*phpThread, int)`: a supplied
hook, or the closure that `setActive` builds (lines 69-80), which captures the four hooks
given to `setActive` and is only ever stored in the `onStartup` slot. -/
inductive HookFn where
  | supplied (h : HookId)
  | indirect (onStartup beforeScriptExecution afterScriptExecution onShutdown : Option HookId)
deriving DecidableEq, Repr

/-- The struct `phpThread`.  `pinned` is the embedded `runtime.Pinner`. -/
structure phpThread where
  pinned : List Pinned
  mainRequest : Option Request
  workerRequest : Option Request
  requestChan : Option Nat
  worker : Option Nat
  scriptName : List UInt8
  threadIndex : Nat
  isActive : Bool
  isReady : Bool
  onStartup : Option HookFn
  beforeScriptExecution : Option HookId
  afterScriptExecution : Option HookId
  onShutdown : Option HookId
  done : Option Nat
  backoff : Option Nat
  knownVariableKeys : List (List UInt8 × Nat)
  state : threadStateHandler
deriving DecidableEq, Repr

/-- What the supplied hooks do to the thread record they are called on:
`run` for the hooks of type `func(*phpThread)`, `runStatus` for
`afterScriptExecution`, of type `func(*phpThread, int)`. -/
structure HookEnv where
  run : HookId → phpThread → phpThread
  runStatus : HookId → Int → phpThread → phpThread

/-- The places of `php_thread.go` where a hook is called. -/
inductive CallSite where
  /-- line 71, inside the closure of `setActive`: `thread.onShutdown(thread)` -/
  | closureOnShutdown
  /-- line 78, inside the closure of `setActive`: `thread.onStartup(thread)` -/
  | closureOnStartup
  /-- line 120, before-script-execution: `thread.onStartup(thread)` -/
  | beforeOnStartup
  /-- line 125, before-script-execution: `thread.beforeScriptExecution(thread)` -/
  | beforeBeforeScriptExecution
  /-- line 138, after-script-execution: `thread.afterScriptExecution(thread, int(exitStatus))` -/
  | afterAfterScriptExecution
  /-- line 148, on-thread-shutdown: `thread.onShutdown(thread)` -/
  | shutdownOnShutdown
deriving DecidableEq, Repr

/-- One hook invocation: where it was made, the function value called, the integer
argument (for `afterScriptExecution`) and the thread record as it stood on entry. -/
structure Call where
  site : CallSite
  fn : HookFn
  status : Option Int
  seen : phpThread
deriving DecidableEq, Repr

/-- The values a callback can panic with. -/
inductive PanicValue where
  /-- the distinguished error `ScriptExecutionError` (declared outside `php_thread.go`) -/
  | ScriptExecutionError
  /-- the run-time error of calling a nil function value -/
  | nilFunctionCall
deriving DecidableEq, Repr

/-- How a callback ends: it returns a value, it panics, or it stays parked in `waitFor`. -/
inductive Completion (α : Type) where
  | returned (v : α)
  | panicked (p : PanicValue)
  | blocked
deriving DecidableEq, Repr

/-- The outcome of a callback: the record it leaves (for a callback that stays parked,
the record as the other threads have left it), the hook calls it made, in order, and
how it completed. -/
structure Step (α : Type) where
  thread : phpThread
  calls : List Call
  completion : Completion α
deriving DecidableEq, Repr

/-- `runtime.Pinner.Pin` of a pointer to the object `p`; `heap` tells whether the
pointer points into the Go heap.  A heap object is registered; for a pointer to static
data, such as the data of a string constant, `Pin` registers nothing. -/
def phpThread.Pin (thread : phpThread) (p : Pinned) (heap : Bool) : phpThread :=
  if heap then { thread with pinned := thread.pinned ++ [p] } else thread

/-- `runtime.Pinner.Unpin`: releases every registered object. -/
def phpThread.Unpin (thread : phpThread) : phpThread :=
  { thread with pinned := [] }

/-- The statement `thread.state.set(s)`: the state handler of the record takes the state `s`. -/
def phpThread.setState (thread : phpThread) (s : stateID) : phpThread :=
  { thread with state := thread.state.set s }

/-- `getActiveRequest` (lines 46-52). -/
def phpThread.getActiveRequest (thread : phpThread) : Option Request :=
  if thread.workerRequest ≠ none then thread.workerRequest else thread.mainRequest

/-- `setInactive` (lines 54-60). -/
def phpThread.setInactive (thread : phpThread) : phpThread :=
  let thread := { thread with scriptName := [] }
  if !thread.state.is stateShuttingDown then
    thread.setState stateInactive
  else
    thread

/-- `setActive` (lines 62-82): stores the closure in the `onStartup` slot and sets the
state to `Active`. -/
def phpThread.setActive (thread : phpThread)
    (onStartup beforeScriptExecution afterScriptExecution onShutdown : Option HookId) :
    phpThread :=
  let thread := { thread with
    onStartup := some (HookFn.indirect onStartup beforeScriptExecution
      afterScriptExecution onShutdown) }
  thread.setState stateActive

/-- The statement `if hook != nil { hook(thread) }` for a supplied hook of type
`func(*phpThread)`: the record it leaves. -/
def HookEnv.runOpt (env : HookEnv) (hook : Option HookId) (thread : phpThread) : phpThread :=
  match hook with
  | some h => env.run h thread
  | none => thread

/-- The statement `if hook != nil { hook(thread) }` at the call site `site`: the calls it
makes, one if the hook is there and none otherwise. -/
def callOf (site : CallSite) (hook : Option HookId) (seen : phpThread) : List Call :=
  match hook with
  | some h => [⟨site, HookFn.supplied h, none, seen⟩]
  | none => []

/-- The four assignments of the closure of `setActive` (lines 73-76). -/
def phpThread.swapHooks (thread : phpThread)
    (onStartup beforeScriptExecution afterScriptExecution onShutdown : Option HookId) :
    phpThread :=
  let thread := { thread with onStartup := onStartup.map HookFn.supplied }
  let thread := { thread with beforeScriptExecution := beforeScriptExecution }
  let thread := { thread with onShutdown := onShutdown }
  { thread with afterScriptExecution := afterScriptExecution }

/-- The body of the closure that `setActive` builds (lines 69-80), run on `thread`:
the current `onShutdown` if any, then the four assignments, then the new `onStartup`
if any.  Returns the record and the calls made. -/
def runIndirect (env : HookEnv)
    (onStartup beforeScriptExecution afterScriptExecution onShutdown : Option HookId)
    (thread : phpThread) : phpThread × List Call :=
  let c1 := callOf CallSite.closureOnShutdown thread.onShutdown thread
  let thread := env.runOpt thread.onShutdown thread
  let thread :=
    thread.swapHooks onStartup beforeScriptExecution afterScriptExecution onShutdown
  let c2 := callOf CallSite.closureOnStartup onStartup thread
  let thread := env.runOpt onStartup thread
  (thread, c1 ++ c2)

/-- Calling the function value `fn` of the `onStartup` slot on `thread` (line 120). -/
def callHookFn (env : HookEnv) (fn : HookFn) (thread : phpThread) :
    phpThread × List Call :=
  match fn with
  | HookFn.supplied h =>
    (env.run h thread, [⟨CallSite.beforeOnStartup, fn, none, thread⟩])
  | HookFn.indirect s b a d =>
    let r := runIndirect env s b a d thread
    (r.1, ⟨CallSite.beforeOnStartup, fn, none, thread⟩ :: r.2)

/-- `pinString` (lines 86-90): pins the data of the string `s` and returns its address;
`heap` tells whether the data of `s` lies in the Go heap. -/
def phpThread.pinString (thread : phpThread) (s : List UInt8) (heap : Bool) :
    phpThread × List UInt8 :=
  let sData := s
  (thread.Pin (Pinned.stringData sData) heap, sData)

/-- `pinCString` (lines 93-95): pins `s` followed by a zero byte.  The concatenation
`s + "\x00"` is a new string in the heap, except that for an empty `s` it is the string
constant "\x00" itself, which is static data. -/
def phpThread.pinCString (thread : phpThread) (s : List UInt8) : phpThread × List UInt8 :=
  thread.pinString (s ++ [0]) (decide (s ≠ []))

/-- What another thread may do to the record while its owner is parked in `waitFor`. -/
inductive ExternalOp where
  | set (s : stateID)
  | setActive (onStartup beforeScriptExecution afterScriptExecution onShutdown : Option HookId)
deriving DecidableEq, Repr

/-- The effect of an `ExternalOp` on the record. -/
def ExternalOp.apply (op : ExternalOp) (thread : phpThread) : phpThread :=
  match op with
  | ExternalOp.set s => thread.setState s
  | ExternalOp.setActive s b a d => thread.setActive s b a d

/-- The effect of a sequence of actions of the other threads. -/
def ExternalOp.applyAll (ops : List ExternalOp) (thread : phpThread) : phpThread :=
  ops.foldl (fun t op => op.apply t) thread

/-- Modelled from the spec: `waitFor(targetStateA, targetStateB)` of the state handler
(declared outside `php_thread.go`) blocks the caller until the state becomes one of the
two targets.  `ops` are the actions of the other threads while the caller is parked, in
order; the result is the record at the moment the caller wakes, or `none` when none of
the actions installs a target state (the caller stays parked). -/
def phpThread.waitFor (thread : phpThread) (a b : stateID) :
    List ExternalOp → Option phpThread
  | [] => if thread.state.is a || thread.state.is b then some thread else none
  | op :: ops =>
    if thread.state.is a || thread.state.is b then some thread
    else phpThread.waitFor (op.apply thread) a b ops

/-- `go_frankenphp_on_thread_startup` (lines 98-100), on `thread = phpThreads[threadIndex]`. -/
def go_frankenphp_on_thread_startup (thread : phpThread) : phpThread :=
  thread.setInactive

/-- Lines 116-122 of `go_frankenphp_before_script_execution`: a thread that is not
`Ready` yet is set `Ready` and its `onStartup`, if any, is called. -/
def startUp (env : HookEnv) (thread : phpThread) : phpThread × List Call :=
  if !thread.state.is stateReady then
    let thread := thread.setState stateReady
    match thread.onStartup with
    | some fn => callHookFn env fn thread
    | none => (thread, [])
  else (thread, [])

/-- Lines 124-128 of `go_frankenphp_before_script_execution`: the call of the
`beforeScriptExecution` hook and the return of the pinned script name; `calls` are the
calls made so far. -/
def scriptHook (env : HookEnv) (thread : phpThread) (calls : List Call) :
    Step (Option (List UInt8)) :=
  match thread.beforeScriptExecution with
  | none => ⟨thread, calls, Completion.panicked PanicValue.nilFunctionCall⟩
  | some h =>
    let c : Call :=
      ⟨CallSite.beforeBeforeScriptExecution, HookFn.supplied h, none, thread⟩
    let thread := env.run h thread
    let p := thread.pinCString thread.scriptName
    ⟨p.1, calls ++ [c], Completion.returned (some p.2)⟩

/-- Lines 111-128 of `go_frankenphp_before_script_execution`: what the callback does
once it is past the optional wait. -/
def beforeScriptAwake (env : HookEnv) (thread : phpThread) : Step (Option (List UInt8)) :=
  if thread.state.is stateShuttingDown then
    ⟨thread, [], Completion.returned none⟩
  else
    let r := startUp env thread
    scriptHook env r.1 r.2

/-- `go_frankenphp_before_script_execution` (lines 103-129), on
`thread = phpThreads[threadIndex]`; `ops` are the actions of the other threads while the
callback is parked in `waitFor`.  The result `none` is the nil pointer, `some buf` a
pointer to the buffer `buf`. -/
def go_frankenphp_before_script_execution (env : HookEnv) (thread : phpThread)
    (ops : List ExternalOp) : Step (Option (List UInt8)) :=
  if thread.state.is stateInactive then
    match thread.waitFor stateActive stateShuttingDown ops with
    | none => ⟨ExternalOp.applyAll ops thread, [], Completion.blocked⟩
    | some thread => beforeScriptAwake env thread
  else
    beforeScriptAwake env thread

/-- `go_frankenphp_after_script_execution` (lines 132-141), on
`thread = phpThreads[threadIndex]`. -/
def go_frankenphp_after_script_execution (env : HookEnv) (thread : phpThread)
    (exitStatus : Int) : Step Unit :=
  if exitStatus < 0 then
    ⟨thread, [], Completion.panicked PanicValue.ScriptExecutionError⟩
  else
    let r : phpThread × List Call :=
      match thread.afterScriptExecution with
      | some h =>
        (env.runStatus h exitStatus thread,
          [⟨CallSite.afterAfterScriptExecution, HookFn.supplied h, some exitStatus, thread⟩])
      | none => (thread, [])
    ⟨r.1.Unpin, r.2, Completion.returned ()⟩

/-- `go_frankenphp_on_thread_shutdown` (lines 144-151), on
`thread = phpThreads[threadIndex]`. -/
def go_frankenphp_on_thread_shutdown (env : HookEnv) (thread : phpThread) : Step Unit :=
  let thread := thread.Unpin
  let c := callOf CallSite.shutdownOnShutdown thread.onShutdown thread
  let thread := env.runOpt thread.onShutdown thread
  ⟨thread.setState stateDone, c, Completion.returned ()⟩

/-! ## Runs, counting and conditions on the supplied hooks -/

/-- The callback `go_frankenphp_before_script_execution` called `n` times in a row on the
same thread; the other threads act (`ops`) only while the first call is parked. -/
def beforeRuns (env : HookEnv) (thread : phpThread) (ops : List ExternalOp) :
    Nat → List (Step (Option (List UInt8)))
  | 0 => []
  | n + 1 =>
    go_frankenphp_before_script_execution env thread ops ::
      beforeRuns env (go_frankenphp_before_script_execution env thread ops).thread [] n

/-- The hook invocations of a sequence of callbacks, in order. -/
def allCalls {α : Type} : List (Step α) → List Call
  | [] => []
  | r :: rs => r.calls ++ allCalls rs

/-- How many of the invocations were made at the call site `site`. -/
def countAt (site : CallSite) (calls : List Call) : Nat :=
  (calls.filter (fun c => decide (c.site = site))).length

/-- The fields of a record other than the state and the `onStartup` slot that the claims
speak of. -/
def sameWork (u t : phpThread) : Prop :=
  u.pinned = t.pinned ∧ u.scriptName = t.scriptName ∧
    u.mainRequest = t.mainRequest ∧ u.workerRequest = t.workerRequest ∧
    u.beforeScriptExecution = t.beforeScriptExecution ∧
    u.afterScriptExecution = t.afterScriptExecution ∧ u.onShutdown = t.onShutdown

/-- No supplied hook of type `func(*phpThread)` sets the state. -/
def HookEnv.keepsState (env : HookEnv) : Prop :=
  ∀ (h : HookId) (t : phpThread), (env.run h t).state = t.state

/-- No supplied hook of type `func(*phpThread)` releases a pinned object. -/
def HookEnv.keepsPins (env : HookEnv) : Prop :=
  ∀ (h : HookId) (t : phpThread), List.Sublist t.pinned (env.run h t).pinned

/-- The startup hook `s`, if any, does not itself assign the `beforeScriptExecution` slot. -/
def HookEnv.startupKeepsBefore (env : HookEnv) (s : Option HookId) : Prop :=
  ∀ h, s = some h → ∀ t : phpThread,
    (env.run h t).beforeScriptExecution = t.beforeScriptExecution

/-- No supplied hook of type `func(*phpThread, int)` sets the state. -/
def HookEnv.statusKeepsState (env : HookEnv) : Prop :=
  ∀ (h : HookId) (status : Int) (t : phpThread), (env.runStatus h status t).state = t.state

/-- The hook `hook`, if any, does not itself assign any of the four hook slots. -/
def HookEnv.keepsHooks (env : HookEnv) (hook : Option HookId) : Prop :=
  ∀ h, hook = some h → ∀ t : phpThread,
    (env.run h t).onStartup = t.onStartup ∧
      (env.run h t).beforeScriptExecution = t.beforeScriptExecution ∧
      (env.run h t).afterScriptExecution = t.afterScriptExecution ∧
      (env.run h t).onShutdown = t.onShutdown

/-- The part of a byte string before its first zero byte (all of it when it has none). -/
def beforeZero (s : List UInt8) : List UInt8 :=
  s.takeWhile (fun c => decide (c ≠ 0))

/-- How the native side reads a `char*`: the bytes of the buffer up to, and not
including, its first zero byte.  A buffer that holds no zero byte is not a C string: the
read runs past its end, which is `none`. -/
def cString : List UInt8 → Option (List UInt8)
  | [] => none
  | c :: rest => if c = 0 then some [] else (cString rest).map (fun r => c :: r)

/-! ## Sample data -/

/-- A parked thread with nothing assigned. -/
def idleThread : phpThread :=
  { pinned := [], mainRequest := none, workerRequest := none, requestChan := none,
    worker := none, scriptName := [], threadIndex := 0, isActive := false, isReady := false,
    onStartup := none, beforeScriptExecution := none, afterScriptExecution := none,
    onShutdown := none, done := none, backoff := none, knownVariableKeys := [],
    state := ⟨stateInactive⟩ }

/-- The bytes of "/a.php". -/
def samplePath : List UInt8 := [47, 97, 46, 112, 104, 112]

/-- Sample hooks: hook 1 assigns the script name and a request, hook 2 pins an object,
every other hook leaves the record alone; as `afterScriptExecution`, hook 1 drops the
request. -/
def sampleEnv : HookEnv :=
  { run := fun h thread =>
      if h = 1 then { thread with scriptName := samplePath, mainRequest := some 7 }
      else if h = 2 then thread.Pin (Pinned.object 64) true
      else thread
    runStatus := fun h _ thread =>
      if h = 1 then { thread with mainRequest := none } else thread }

/-- A thread in the middle of a work unit: `Ready`, hooks installed, the script path pinned. -/
def busyThread : phpThread :=
  { idleThread with
    pinned := [Pinned.stringData (samplePath ++ [0])], scriptName := samplePath,
    mainRequest := some 7, beforeScriptExecution := some 1, afterScriptExecution := some 1,
    onShutdown := some 6, state := ⟨stateReady⟩ }

/-- A thread for which shutdown was requested while it was at work. -/
def stoppingThread : phpThread :=
  { busyThread with state := ⟨stateShuttingDown⟩ }

/-- Hooks that do not keep to the slots left to them: hook 1 assigns the script name,
hook 4 assigns the `beforeScriptExecution` slot (hook 9), hook 5 releases the pins,
hook 7 assigns the `onStartup` slot (hook 77); every other hook leaves the record alone. -/
def unrulyEnv : HookEnv :=
  { run := fun h thread =>
      if h = 1 then { thread with scriptName := samplePath }
      else if h = 4 then { thread with beforeScriptExecution := some 9 }
      else if h = 5 then thread.Unpin
      else if h = 7 then { thread with onStartup := some (HookFn.supplied 77) }
      else thread
    runStatus := fun _ _ thread => thread }

/-! ## The after-script-execution callback -/

/-- C1 (as stated, refuted): on the thread `busyThread`, whose script path is pinned, the
after-script-execution callback with exit status `-1` panics with `ScriptExecutionError`
and the pin set still holds the path: `Unpin` is not reached on the fatal path. -/
theorem after_script_execution_fatal_keeps_pins :
    (go_frankenphp_after_script_execution sampleEnv busyThread (-1)).completion
        = Completion.panicked PanicValue.ScriptExecutionError ∧
      (go_frankenphp_after_script_execution sampleEnv busyThread (-1)).thread.pinned
        = [Pinned.stringData (samplePath ++ [0])] ∧
      (go_frankenphp_after_script_execution sampleEnv busyThread (-1)).thread.pinned ≠ [] := by
  decide

/-- C1 (amended): for every thread, hook environment and exit status, the callback returns
with an empty pin set when the exit status is not negative, whatever the hook did; when
the exit status is negative it panics with `ScriptExecutionError` before `Unpin` and
leaves the record, its pin set included, as it was. -/
theorem after_script_execution_pins (env : HookEnv) (thread : phpThread) (exitStatus : Int) :
    (go_frankenphp_after_script_execution env thread exitStatus).thread.pinned
        = (if exitStatus < 0 then thread.pinned else []) ∧
      (go_frankenphp_after_script_execution env thread exitStatus).completion
        = (if exitStatus < 0 then Completion.panicked PanicValue.ScriptExecutionError
            else Completion.returned ()) := by
  unfold go_frankenphp_after_script_execution
  by_cases h : exitStatus < 0
  · simp [h]
  · simp [h, phpThread.Unpin]

/-- C2: the after-script-execution callback panics with `ScriptExecutionError` exactly when
the exit status is negative; with a negative status it calls no hook; otherwise it calls
the hook of the `afterScriptExecution` slot, if there is one, exactly once, on the record
as it stood on entry and with the same integer, and calls nothing else. -/
theorem after_script_execution_fatal_iff (env : HookEnv) (thread : phpThread)
    (exitStatus : Int) :
    ((go_frankenphp_after_script_execution env thread exitStatus).completion
        = Completion.panicked PanicValue.ScriptExecutionError ↔ exitStatus < 0) ∧
      (go_frankenphp_after_script_execution env thread exitStatus).calls
        = (if exitStatus < 0 then []
            else match thread.afterScriptExecution with
              | some h => [⟨CallSite.afterAfterScriptExecution, HookFn.supplied h,
                  some exitStatus, thread⟩]
              | none => []) ∧
      (go_frankenphp_after_script_execution env thread exitStatus).thread
        = (if exitStatus < 0 then thread
            else match thread.afterScriptExecution with
              | some h => (env.runStatus h exitStatus thread).Unpin
              | none => thread.Unpin) := by
  unfold go_frankenphp_after_script_execution
  by_cases h : exitStatus < 0
  · simp [h]
  · cases hs : thread.afterScriptExecution <;> simp [h, hs]

/-! ## The startup callback -/

/-- C3 (as stated, refuted): on `stoppingThread`, whose state is `ShuttingDown`, the
on-thread-startup callback leaves the state `ShuttingDown`; it is not `Inactive`. -/
theorem on_thread_startup_keeps_shutting_down :
    (go_frankenphp_on_thread_startup stoppingThread).state.currentState = stateShuttingDown ∧
      (go_frankenphp_on_thread_startup stoppingThread).state.currentState ≠ stateInactive := by
  decide

/-- C3 (amended): for every thread, the on-thread-startup callback empties the script name,
sets the state to `Inactive` unless it is `ShuttingDown`, in which case the state stays
`ShuttingDown`, and changes no other field. -/
theorem on_thread_startup_effect (thread : phpThread) :
    go_frankenphp_on_thread_startup thread
      = { thread with
          scriptName := []
          state := ⟨if thread.state.currentState = stateShuttingDown then stateShuttingDown
            else stateInactive⟩ } := by
  unfold go_frankenphp_on_thread_startup phpThread.setInactive
  by_cases h : thread.state.currentState = stateShuttingDown
  · simp [threadStateHandler.is, h]
    rw [← h]
  · simp [threadStateHandler.is, threadStateHandler.set, phpThread.setState, h]

/-! ## Waiting -/

theorem sameWork_refl (t : phpThread) : sameWork t t :=
  ⟨rfl, rfl, rfl, rfl, rfl, rfl, rfl⟩

theorem sameWork_trans {u v t : phpThread} (h1 : sameWork u v) (h2 : sameWork v t) :
    sameWork u t := by
  obtain ⟨a1, a2, a3, a4, a5, a6, a7⟩ := h1
  obtain ⟨b1, b2, b3, b4, b5, b6, b7⟩ := h2
  exact ⟨a1.trans b1, a2.trans b2, a3.trans b3, a4.trans b4, a5.trans b5, a6.trans b6,
    a7.trans b7⟩

theorem sameWork_apply (op : ExternalOp) (t : phpThread) : sameWork (op.apply t) t := by
  cases op <;> exact ⟨rfl, rfl, rfl, rfl, rfl, rfl, rfl⟩

/-- A caller woken from `waitFor` finds one of the two target states. -/
theorem waitFor_target (a b : stateID) (ops : List ExternalOp) :
    ∀ (t w : phpThread), t.waitFor a b ops = some w →
      (w.state.is a || w.state.is b) = true := by
  induction ops with
  | nil =>
    intro t w h
    unfold phpThread.waitFor at h
    split at h
    · cases h; assumption
    · cases h
  | cons op ops ih =>
    intro t w h
    unfold phpThread.waitFor at h
    split at h
    · cases h; assumption
    · exact ih _ _ h

/-- The actions of the other threads during a wait leave the work fields alone. -/
theorem waitFor_sameWork (a b : stateID) (ops : List ExternalOp) :
    ∀ (t w : phpThread), t.waitFor a b ops = some w → sameWork w t := by
  induction ops with
  | nil =>
    intro t w h
    unfold phpThread.waitFor at h
    split at h
    · cases h; exact sameWork_refl _
    · cases h
  | cons op ops ih =>
    intro t w h
    unfold phpThread.waitFor at h
    split at h
    · cases h; exact sameWork_refl _
    · exact sameWork_trans (ih _ _ h) (sameWork_apply op t)

/-- When the other threads only set the state, the `onStartup` slot is as it was. -/
theorem waitFor_onStartup (a b : stateID) (ops : List ExternalOp)
    (hops : ∀ op ∈ ops, ∃ s, op = ExternalOp.set s) :
    ∀ (t w : phpThread), t.waitFor a b ops = some w → w.onStartup = t.onStartup := by
  induction ops with
  | nil =>
    intro t w h
    unfold phpThread.waitFor at h
    split at h
    · cases h; rfl
    · cases h
  | cons op ops ih =>
    intro t w h
    unfold phpThread.waitFor at h
    split at h
    · cases h; rfl
    · obtain ⟨s, rfl⟩ := hops op (List.mem_cons_self _ _)
      have := ih (fun o ho => hops o (List.mem_cons_of_mem _ ho)) _ _ h
      simpa [ExternalOp.apply] using this

/-! ## The before-script-execution callback: the stop sentinel -/

/-- C4: when the state is `ShuttingDown` on entry (`woken = thread`), or the callback
waits from `Inactive` and is woken by `ShuttingDown` (`woken` is the record at that
moment), the before-script-execution callback returns nil, calls no hook and leaves the
record exactly as it found it at that point: nothing is pinned, and state, script name
and hook slots are untouched.  The wait itself changed neither the pin set, the script
name, the requests nor the `beforeScriptExecution`, `afterScriptExecution` and
`onShutdown` slots, and not the `onStartup` slot when the other threads only set the
state. -/
theorem before_script_execution_stop (env : HookEnv) (thread woken : phpThread)
    (ops : List ExternalOp)
    (h : (thread.state.currentState = stateShuttingDown ∧ woken = thread) ∨
      (thread.state.currentState = stateInactive ∧
        thread.waitFor stateActive stateShuttingDown ops = some woken ∧
        woken.state.currentState = stateShuttingDown)) :
    go_frankenphp_before_script_execution env thread ops
        = ⟨woken, [], Completion.returned none⟩ ∧
      woken.state.currentState = stateShuttingDown ∧
      sameWork woken thread ∧
      ((∀ op ∈ ops, ∃ s, op = ExternalOp.set s) → woken.onStartup = thread.onStartup) := by
  rcases h with ⟨hs, rfl⟩ | ⟨hi, hw, hs⟩
  · refine ⟨?_, hs, sameWork_refl _, fun _ => rfl⟩
    simp [go_frankenphp_before_script_execution, beforeScriptAwake, threadStateHandler.is, hs]
  · refine ⟨?_, hs, waitFor_sameWork _ _ _ _ _ hw, fun hops => waitFor_onStartup _ _ _ hops _ _ hw⟩
    simp [go_frankenphp_before_script_execution, beforeScriptAwake, threadStateHandler.is, hi,
      hw, hs]

/-- C4, witness: a parked thread (`idleThread`) woken by `set(ShuttingDown)`. -/
theorem before_script_execution_stop_witness :
    ((idleThread.state.currentState = stateShuttingDown ∧
          ({ idleThread with state := ⟨stateShuttingDown⟩ } : phpThread) = idleThread) ∨
        (idleThread.state.currentState = stateInactive ∧
          idleThread.waitFor stateActive stateShuttingDown [ExternalOp.set stateShuttingDown]
            = some { idleThread with state := ⟨stateShuttingDown⟩ } ∧
          ({ idleThread with state := ⟨stateShuttingDown⟩ } : phpThread).state.currentState
            = stateShuttingDown)) ∧
      go_frankenphp_before_script_execution sampleEnv idleThread
          [ExternalOp.set stateShuttingDown]
        = ⟨{ idleThread with state := ⟨stateShuttingDown⟩ }, [], Completion.returned none⟩ :=
  ⟨by decide,
    (before_script_execution_stop sampleEnv idleThread
      { idleThread with state := ⟨stateShuttingDown⟩ } [ExternalOp.set stateShuttingDown]
      (by decide)).1⟩

/-! ## The mode switch -/

theorem setActive_state (thread : phpThread) (s b a d : Option HookId) :
    (thread.setActive s b a d).state.currentState = stateActive := rfl

/-- The before-script-execution callback on a thread that `setActive` has just been
called on. -/
theorem before_after_setActive (env : HookEnv) (thread : phpThread)
    (s b a d : Option HookId) (ops : List ExternalOp) :
    go_frankenphp_before_script_execution env (thread.setActive s b a d) ops
      = (let ready : phpThread := (thread.setActive s b a d).setState stateReady
         let r := runIndirect env s b a d ready
         match r.1.beforeScriptExecution with
         | none =>
           ⟨r.1, ⟨CallSite.beforeOnStartup, HookFn.indirect s b a d, none, ready⟩ :: r.2,
             Completion.panicked PanicValue.nilFunctionCall⟩
         | some h =>
           ⟨((env.run h r.1).pinCString (env.run h r.1).scriptName).1,
             (⟨CallSite.beforeOnStartup, HookFn.indirect s b a d, none, ready⟩ :: r.2)
               ++ [⟨CallSite.beforeBeforeScriptExecution, HookFn.supplied h, none, r.1⟩],
             Completion.returned (some ((env.run h r.1).pinCString (env.run h r.1).scriptName).2)⟩) := by
  rfl

theorem runIndirect_fst (env : HookEnv) (s b a d : Option HookId) (t : phpThread) :
    (runIndirect env s b a d t).1
      = env.runOpt s ((env.runOpt t.onShutdown t).swapHooks s b a d) := rfl

theorem runIndirect_snd (env : HookEnv) (s b a d : Option HookId) (t : phpThread) :
    (runIndirect env s b a d t).2
      = callOf CallSite.closureOnShutdown t.onShutdown t
        ++ callOf CallSite.closureOnStartup s ((env.runOpt t.onShutdown t).swapHooks s b a d) :=
  rfl

theorem runOpt_before_of_keeps (env : HookEnv) (s : Option HookId)
    (hs : env.startupKeepsBefore s) (t : phpThread) :
    (env.runOpt s t).beforeScriptExecution = t.beforeScriptExecution := by
  cases s with
  | none => rfl
  | some h => exact hs h rfl t

/-- C6: `setActive` changes the `onStartup` slot and the state and nothing else: the
`beforeScriptExecution`, `afterScriptExecution` and `onShutdown` slots, the script name,
the requests and the pin set are as before.  An after-script-execution callback that
comes next therefore calls the hook that was in the `afterScriptExecution` slot before
`setActive` (once, with the exit status, when the status is not negative), not the hook
`a` just handed over. -/
theorem setActive_frame (env : HookEnv) (thread : phpThread) (s b a d : Option HookId)
    (exitStatus : Int) :
    thread.setActive s b a d
        = { thread with
            onStartup := some (HookFn.indirect s b a d)
            state := ⟨stateActive⟩ } ∧
      sameWork (thread.setActive s b a d) thread ∧
      (go_frankenphp_after_script_execution env (thread.setActive s b a d) exitStatus).calls
        = (if exitStatus < 0 then []
            else match thread.afterScriptExecution with
              | some h => [⟨CallSite.afterAfterScriptExecution, HookFn.supplied h,
                  some exitStatus, thread.setActive s b a d⟩]
              | none => []) := by
  refine ⟨rfl, ⟨rfl, rfl, rfl, rfl, rfl, rfl, rfl⟩, ?_⟩
  unfold go_frankenphp_after_script_execution
  have hslot : (thread.setActive s b a d).afterScriptExecution = thread.afterScriptExecution :=
    rfl
  by_cases h : exitStatus < 0
  · simp [h]
  · cases hs : thread.afterScriptExecution <;> simp [h, hs, hslot]

/-! ## The before-script-execution callback: startup and the script path -/

/-! ## The before-script-execution callback: startup and the script path -/

theorem runOpt_state (env : HookEnv) (hst : env.keepsState) (h : Option HookId)
    (t : phpThread) : (env.runOpt h t).state = t.state := by
  cases h with
  | none => rfl
  | some h => exact hst h t

theorem runOpt_pins (env : HookEnv) (hp : env.keepsPins) (h : Option HookId)
    (t : phpThread) : List.Sublist t.pinned (env.runOpt h t).pinned := by
  cases h with
  | none => exact List.Sublist.refl _
  | some h => exact hp h t

theorem mem_callOf {site : CallSite} {h : Option HookId} {seen : phpThread} {c : Call}
    (hc : c ∈ callOf site h seen) : c.site = site ∧ c.seen = seen := by
  cases h with
  | none => simp [callOf] at hc
  | some h =>
    simp only [callOf, List.mem_singleton] at hc
    subst hc
    exact ⟨rfl, rfl⟩

theorem countAt_nil (site : CallSite) : countAt site [] = 0 := rfl

theorem countAt_append (site : CallSite) (xs ys : List Call) :
    countAt site (xs ++ ys) = countAt site xs + countAt site ys := by
  simp [countAt]

theorem countAt_cons (site : CallSite) (c : Call) (xs : List Call) :
    countAt site (c :: xs) = (if c.site = site then 1 else 0) + countAt site xs := by
  by_cases h : c.site = site
  · simp [countAt, h, Nat.add_comm]
  · simp [countAt, h]

theorem countAt_callOf (site site2 : CallSite) (h : Option HookId) (seen : phpThread)
    (hne : site2 ≠ site) : countAt site (callOf site2 h seen) = 0 := by
  cases h with
  | none => rfl
  | some h => simp [callOf, countAt, hne]

theorem callHookFn_state (env : HookEnv) (hst : env.keepsState) (fn : HookFn)
    (t : phpThread) : (callHookFn env fn t).1.state = t.state := by
  cases fn with
  | supplied h => exact hst h t
  | indirect s b a d =>
    show (runIndirect env s b a d t).1.state = t.state
    rw [runIndirect_fst, runOpt_state env hst]
    show (env.runOpt t.onShutdown t).state = t.state
    exact runOpt_state env hst _ _

theorem callHookFn_seen (env : HookEnv) (hst : env.keepsState) (fn : HookFn)
    (t : phpThread) : ∀ c ∈ (callHookFn env fn t).2, c.seen.state = t.state := by
  cases fn with
  | supplied h =>
    intro c hc
    simp only [callHookFn, List.mem_singleton] at hc
    subst hc
    rfl
  | indirect s b a d =>
    intro c hc
    simp only [callHookFn, List.mem_cons] at hc
    rcases hc with rfl | hc
    · rfl
    · rw [runIndirect_snd, List.mem_append] at hc
      rcases hc with hc | hc
      · rw [(mem_callOf hc).2]
      · rw [(mem_callOf hc).2]
        show (env.runOpt t.onShutdown t).state = t.state
        exact runOpt_state env hst _ _

theorem callHookFn_pins (env : HookEnv) (hp : env.keepsPins) (fn : HookFn)
    (t : phpThread) : List.Sublist t.pinned (callHookFn env fn t).1.pinned := by
  cases fn with
  | supplied h => exact hp h t
  | indirect s b a d =>
    show List.Sublist t.pinned (runIndirect env s b a d t).1.pinned
    rw [runIndirect_fst]
    refine List.Sublist.trans ?_ (runOpt_pins env hp _ _)
    show List.Sublist t.pinned (env.runOpt t.onShutdown t).pinned
    exact runOpt_pins env hp _ _

theorem callHookFn_count (env : HookEnv) (fn : HookFn) (t : phpThread) :
    countAt CallSite.beforeOnStartup (callHookFn env fn t).2 = 1 ∧
      countAt CallSite.beforeBeforeScriptExecution (callHookFn env fn t).2 = 0 := by
  cases fn with
  | supplied h => exact ⟨rfl, rfl⟩
  | indirect s b a d =>
    simp only [callHookFn]
    rw [countAt_cons, countAt_cons, runIndirect_snd, countAt_append, countAt_append,
      countAt_callOf _ _ _ _ (by decide), countAt_callOf _ _ _ _ (by decide),
      countAt_callOf _ _ _ _ (by decide), countAt_callOf _ _ _ _ (by decide)]
    simp

theorem startUp_of_ready (env : HookEnv) (t : phpThread)
    (h : t.state.currentState = stateReady) : startUp env t = (t, []) := by
  simp [startUp, threadStateHandler.is, h]

theorem startUp_of_not_ready (env : HookEnv) (t : phpThread)
    (h : t.state.currentState ≠ stateReady) :
    startUp env t
      = (match t.onStartup with
          | some fn => callHookFn env fn (t.setState stateReady)
          | none => (t.setState stateReady, [])) := by
  simp only [startUp, threadStateHandler.is, h, decide_False, Bool.not_false, if_true]
  rfl

theorem startUp_state (env : HookEnv) (hst : env.keepsState) (t : phpThread) :
    (startUp env t).1.state.currentState = stateReady := by
  by_cases h : t.state.currentState = stateReady
  · rw [startUp_of_ready env t h]; exact h
  · rw [startUp_of_not_ready env t h]
    cases hfn : t.onStartup with
    | none => rfl
    | some fn =>
      simp only []
      rw [callHookFn_state env hst]
      rfl

theorem startUp_seen (env : HookEnv) (hst : env.keepsState) (t : phpThread) :
    ∀ c ∈ (startUp env t).2, c.seen.state.currentState = stateReady := by
  by_cases h : t.state.currentState = stateReady
  · rw [startUp_of_ready env t h]; simp
  · rw [startUp_of_not_ready env t h]
    cases hfn : t.onStartup with
    | none => simp
    | some fn =>
      intro c hc
      simp only [] at hc
      rw [callHookFn_seen env hst _ _ c hc]
      rfl

theorem startUp_pins (env : HookEnv) (hp : env.keepsPins) (t : phpThread) :
    List.Sublist t.pinned (startUp env t).1.pinned := by
  by_cases h : t.state.currentState = stateReady
  · rw [startUp_of_ready env t h]
  · cases hfn : t.onStartup with
    | none =>
      rw [startUp_of_not_ready env t h, hfn]
      exact List.Sublist.refl _
    | some fn =>
      rw [startUp_of_not_ready env t h, hfn]
      exact callHookFn_pins env hp fn (t.setState stateReady)

theorem startUp_count (env : HookEnv) (t : phpThread) :
    countAt CallSite.beforeOnStartup (startUp env t).2
        = (if t.state.currentState = stateReady then 0
            else if t.onStartup.isSome then 1 else 0) ∧
      countAt CallSite.beforeBeforeScriptExecution (startUp env t).2 = 0 := by
  by_cases h : t.state.currentState = stateReady
  · rw [startUp_of_ready env t h]; simp [h, countAt_nil]
  · rw [startUp_of_not_ready env t h]
    cases hfn : t.onStartup with
    | none => simp [h, countAt_nil]
    | some fn =>
      simp only [h, if_false, Option.isSome_some, if_true]
      exact callHookFn_count env fn _

theorem Pin_state (t : phpThread) (p : Pinned) (heap : Bool) :
    (t.Pin p heap).state = t.state := by
  cases heap <;> rfl

theorem Pin_scriptName (t : phpThread) (p : Pinned) (heap : Bool) :
    (t.Pin p heap).scriptName = t.scriptName := by
  cases heap <;> rfl

theorem Pin_slots (t : phpThread) (p : Pinned) (heap : Bool) :
    (t.Pin p heap).onStartup = t.onStartup ∧
      (t.Pin p heap).beforeScriptExecution = t.beforeScriptExecution ∧
      (t.Pin p heap).afterScriptExecution = t.afterScriptExecution ∧
      (t.Pin p heap).onShutdown = t.onShutdown := by
  cases heap <;> exact ⟨rfl, rfl, rfl, rfl⟩

theorem Pin_sublist (t : phpThread) (p : Pinned) (heap : Bool) :
    List.Sublist t.pinned (t.Pin p heap).pinned := by
  cases heap
  · exact List.Sublist.refl _
  · exact List.sublist_append_left _ _

theorem Pin_heap (t : phpThread) (p : Pinned) : (t.Pin p true).pinned = t.pinned ++ [p] :=
  rfl

theorem Pin_static (t : phpThread) (p : Pinned) : t.Pin p false = t := rfl

/-- What lines 124-128 do when the `beforeScriptExecution` hook is there. -/
theorem scriptHook_some (env : HookEnv) (t : phpThread) (calls : List Call) (h : HookId)
    (hb : t.beforeScriptExecution = some h) :
    scriptHook env t calls
      = ⟨(env.run h t).Pin (Pinned.stringData ((env.run h t).scriptName ++ [0]))
            (decide ((env.run h t).scriptName ≠ [])),
          calls ++ [⟨CallSite.beforeBeforeScriptExecution, HookFn.supplied h, none, t⟩],
          Completion.returned (some ((env.run h t).scriptName ++ [0]))⟩ := by
  simp only [scriptHook, hb, phpThread.pinCString, phpThread.pinString]

theorem scriptHook_none (env : HookEnv) (t : phpThread) (calls : List Call)
    (hb : t.beforeScriptExecution = none) :
    scriptHook env t calls = ⟨t, calls, Completion.panicked PanicValue.nilFunctionCall⟩ := by
  simp [scriptHook, hb]

/-- The callback either stays parked, or goes on from the record `w` it finds once it is
past the wait; the wait changes no work field. -/
theorem applyAll_sameWork (ops : List ExternalOp) :
    ∀ t : phpThread, sameWork (ExternalOp.applyAll ops t) t := by
  induction ops with
  | nil => intro t; exact sameWork_refl t
  | cons op ops ih =>
    intro t
    exact sameWork_trans (ih (op.apply t)) (sameWork_apply op t)

theorem before_cases (env : HookEnv) (t : phpThread) (ops : List ExternalOp) :
    (∃ w, sameWork w t ∧
        go_frankenphp_before_script_execution env t ops = ⟨w, [], Completion.blocked⟩) ∨
      ∃ w, sameWork w t ∧
        go_frankenphp_before_script_execution env t ops = beforeScriptAwake env w := by
  unfold go_frankenphp_before_script_execution
  by_cases hi : t.state.is stateInactive = true
  · rw [if_pos hi]
    cases hw : t.waitFor stateActive stateShuttingDown ops with
    | none => exact Or.inl ⟨_, applyAll_sameWork ops t, rfl⟩
    | some w => exact Or.inr ⟨w, waitFor_sameWork _ _ _ _ _ hw, rfl⟩
  · rw [if_neg hi]
    exact Or.inr ⟨t, sameWork_refl t, rfl⟩

/-- Past the wait the callback returns nil, or panics on a missing hook, or calls the
`beforeScriptExecution` hook `h` on the record that startup left and returns the pinned
script name. -/
theorem awake_cases (env : HookEnv) (w : phpThread) :
    beforeScriptAwake env w = ⟨w, [], Completion.returned none⟩ ∨
      beforeScriptAwake env w
        = ⟨(startUp env w).1, (startUp env w).2,
            Completion.panicked PanicValue.nilFunctionCall⟩ ∨
      ∃ h, beforeScriptAwake env w
        = ⟨((env.run h (startUp env w).1)).Pin
              (Pinned.stringData ((env.run h (startUp env w).1).scriptName ++ [0]))
              (decide ((env.run h (startUp env w).1).scriptName ≠ [])),
            (startUp env w).2 ++ [⟨CallSite.beforeBeforeScriptExecution,
              HookFn.supplied h, none, (startUp env w).1⟩],
            Completion.returned (some ((env.run h (startUp env w).1).scriptName ++ [0]))⟩ := by
  unfold beforeScriptAwake
  by_cases hs : w.state.is stateShuttingDown = true
  · rw [if_pos hs]; exact Or.inl rfl
  · rw [if_neg hs]
    cases hb : (startUp env w).1.beforeScriptExecution with
    | none => exact Or.inr (Or.inl (scriptHook_none env _ _ hb))
    | some h => exact Or.inr (Or.inr ⟨h, scriptHook_some env _ _ h hb⟩)

/-! ## One startup per activation -/

theorem before_of_ready (env : HookEnv) (t : phpThread) (ops : List ExternalOp)
    (hR : t.state.currentState = stateReady) :
    go_frankenphp_before_script_execution env t ops = scriptHook env t [] := by
  simp [go_frankenphp_before_script_execution, beforeScriptAwake, threadStateHandler.is, hR,
    startUp_of_ready env t hR]

theorem before_of_active (env : HookEnv) (t w : phpThread) (ops : List ExternalOp)
    (hact : (t.state.currentState = stateActive ∧ w = t) ∨
      (t.state.currentState = stateInactive ∧
        t.waitFor stateActive stateShuttingDown ops = some w ∧
        w.state.currentState = stateActive)) :
    go_frankenphp_before_script_execution env t ops
      = scriptHook env (startUp env w).1 (startUp env w).2 := by
  rcases hact with ⟨ha, rfl⟩ | ⟨hi, hw, ha⟩
  · simp [go_frankenphp_before_script_execution, beforeScriptAwake, threadStateHandler.is, ha]
  · simp [go_frankenphp_before_script_execution, beforeScriptAwake, threadStateHandler.is, hi,
      hw, ha]

theorem scriptHook_returns (env : HookEnv) (hst : env.keepsState) (t : phpThread)
    (calls : List Call)
    (hnp : (scriptHook env t calls).completion
      ≠ Completion.panicked PanicValue.nilFunctionCall) :
    (scriptHook env t calls).thread.state = t.state ∧
      (∃ buf, (scriptHook env t calls).completion = Completion.returned (some buf)) ∧
      ∃ c, (scriptHook env t calls).calls = calls ++ [c] ∧
        c.site = CallSite.beforeBeforeScriptExecution ∧ c.seen = t := by
  cases hb : t.beforeScriptExecution with
  | none =>
    rw [scriptHook_none env t calls hb] at hnp
    exact absurd rfl hnp
  | some h =>
    rw [scriptHook_some env t calls h hb]
    exact ⟨(Pin_state _ _ _).trans (hst h t), ⟨_, rfl⟩, ⟨_, rfl, rfl, rfl⟩⟩

theorem allCalls_cons {α : Type} (r : Step α) (rs : List (Step α)) :
    allCalls (r :: rs) = r.calls ++ allCalls rs := rfl

theorem beforeRuns_succ (env : HookEnv) (t : phpThread) (ops : List ExternalOp) (n : Nat) :
    beforeRuns env t ops (n + 1)
      = go_frankenphp_before_script_execution env t ops ::
          beforeRuns env (go_frankenphp_before_script_execution env t ops).thread [] n := rfl

/-- A thread that is `Ready` stays `Ready` over any number of callbacks, each of which
calls the `beforeScriptExecution` hook once and no startup hook. -/
theorem ready_runs (env : HookEnv) (hst : env.keepsState) :
    ∀ (n : Nat) (t : phpThread), t.state.currentState = stateReady →
      (∀ r ∈ beforeRuns env t [] n,
        r.completion ≠ Completion.panicked PanicValue.nilFunctionCall) →
      (beforeRuns env t [] n).length = n ∧
        (∀ r ∈ beforeRuns env t [] n, r.thread.state.currentState = stateReady ∧
          ∃ buf, r.completion = Completion.returned (some buf)) ∧
        countAt CallSite.beforeOnStartup (allCalls (beforeRuns env t [] n)) = 0 ∧
        countAt CallSite.beforeBeforeScriptExecution (allCalls (beforeRuns env t [] n)) = n := by
  intro n
  induction n with
  | zero =>
    intro t _ _
    refine ⟨rfl, ?_, rfl, rfl⟩
    intro r hr
    cases hr
  | succ n ih =>
    intro t hR hnp
    rw [beforeRuns_succ] at hnp ⊢
    have h0 := hnp _ (List.mem_cons_self _ _)
    rw [before_of_ready env t [] hR] at h0 hnp ⊢
    obtain ⟨hs1, hret, c, hc, hsite, _⟩ := scriptHook_returns env hst t [] h0
    have hR1 : (scriptHook env t []).thread.state.currentState = stateReady := by
      rw [hs1]; exact hR
    obtain ⟨hl, hall, h120, h125⟩ :=
      ih _ hR1 (fun r hr => hnp r (List.mem_cons_of_mem _ hr))
    refine ⟨by simp [hl], ?_, ?_, ?_⟩
    · intro r hr
      rcases List.mem_cons.mp hr with rfl | hr
      · exact ⟨hR1, hret⟩
      · exact hall r hr
    · rw [allCalls_cons, countAt_append, h120, hc]
      simp [countAt, hsite]
    · rw [allCalls_cons, countAt_append, h125, hc]
      simp [countAt, hsite, Nat.add_comm]

/-- C7: a thread that is `Inactive` is set `Active` once (before the callback is entered,
or while it waits; `woken` is the record the callback then finds), and the
before-script-execution callback is called `n ≥ 1` times in a row, with no action of
another thread after the wake-up and hooks that do not set the state, none of the calls
failing on a missing `beforeScriptExecution` hook.  Then every one of the `n` callbacks
returns a script path and leaves the state `Ready`; the `onStartup` of the record is
called (line 120) exactly once when there is one, in the first callback and before the
`beforeScriptExecution` call of that callback, and in no later callback; and
`beforeScriptExecution` is called (line 125) exactly `n` times. -/
theorem onStartup_once_per_activation (env : HookEnv) (hst : env.keepsState)
    (thread woken : phpThread) (ops : List ExternalOp) (n : Nat) (hn : 1 ≤ n)
    (hact : (thread.state.currentState = stateActive ∧ woken = thread) ∨
      (thread.state.currentState = stateInactive ∧
        thread.waitFor stateActive stateShuttingDown ops = some woken ∧
        woken.state.currentState = stateActive))
    (hreq : ∀ r ∈ beforeRuns env thread ops n,
      r.completion ≠ Completion.panicked PanicValue.nilFunctionCall) :
    (beforeRuns env thread ops n).length = n ∧
      (∀ r ∈ beforeRuns env thread ops n, r.thread.state.currentState = stateReady ∧
        ∃ buf, r.completion = Completion.returned (some buf)) ∧
      countAt CallSite.beforeOnStartup (allCalls (beforeRuns env thread ops n))
        = (if woken.onStartup.isSome then 1 else 0) ∧
      countAt CallSite.beforeBeforeScriptExecution (allCalls (beforeRuns env thread ops n))
        = n ∧
      ∃ first rest pre c, beforeRuns env thread ops n = first :: rest ∧
        first.calls = pre ++ [c] ∧ c.site = CallSite.beforeBeforeScriptExecution ∧
        countAt CallSite.beforeOnStartup pre = (if woken.onStartup.isSome then 1 else 0) ∧
        countAt CallSite.beforeBeforeScriptExecution pre = 0 ∧
        countAt CallSite.beforeOnStartup (allCalls rest) = 0 := by
  obtain ⟨m, rfl⟩ : ∃ m, n = m + 1 := ⟨n - 1, by omega⟩
  have hwa : woken.state.currentState = stateActive := by
    rcases hact with ⟨ha, rfl⟩ | ⟨_, _, ha⟩ <;> exact ha
  rw [beforeRuns_succ] at hreq ⊢
  have h0 := hreq _ (List.mem_cons_self _ _)
  rw [before_of_active env thread woken ops hact] at h0 hreq ⊢
  obtain ⟨hs1, hret, c, hc, hsite, _⟩ := scriptHook_returns env hst _ _ h0
  have hR1 : (scriptHook env (startUp env woken).1 (startUp env woken).2).thread.state.currentState
      = stateReady := by
    rw [hs1]; exact startUp_state env hst woken
  obtain ⟨hl, hall, h120, h125⟩ :=
    ready_runs env hst m _ hR1 (fun r hr => hreq r (List.mem_cons_of_mem _ hr))
  obtain ⟨hc120, hc125⟩ := startUp_count env woken
  have hnr : ¬ woken.state.currentState = stateReady := by rw [hwa]; decide
  rw [if_neg hnr] at hc120
  refine ⟨by simp [hl], ?_, ?_, ?_, ?_⟩
  · intro r hr
    rcases List.mem_cons.mp hr with rfl | hr
    · exact ⟨hR1, hret⟩
    · exact hall r hr
  · rw [allCalls_cons, countAt_append, h120, hc, countAt_append, hc120]
    simp [countAt, hsite]
  · rw [allCalls_cons, countAt_append, h125, hc, countAt_append, hc125]
    simp [countAt, hsite, Nat.add_comm]
  · exact ⟨_, _, _, c, rfl, hc, hsite, hc120, hc125, h120⟩

theorem sampleEnv_keepsState : sampleEnv.keepsState := by
  intro h t
  simp only [sampleEnv]
  split
  · rfl
  · split <;> rfl

theorem sampleEnv_keepsPins : sampleEnv.keepsPins := by
  intro h t
  simp only [sampleEnv]
  split
  · exact List.Sublist.refl _
  · split
    · exact List.sublist_append_left _ _
    · exact List.Sublist.refl _

/-- C7, witness: the parked `idleThread` is woken by `setActive` with the hooks 2, 1, 1, 6
and the callback runs three times. -/
theorem onStartup_once_per_activation_witness :
    sampleEnv.keepsState ∧ 1 ≤ 3 ∧
      countAt CallSite.beforeOnStartup (allCalls (beforeRuns sampleEnv idleThread
        [ExternalOp.setActive (some 2) (some 1) (some 1) (some 6)] 3)) = 1 ∧
      countAt CallSite.beforeBeforeScriptExecution (allCalls (beforeRuns sampleEnv idleThread
        [ExternalOp.setActive (some 2) (some 1) (some 1) (some 6)] 3)) = 3 :=
  ⟨sampleEnv_keepsState, by decide,
    (onStartup_once_per_activation sampleEnv sampleEnv_keepsState idleThread
      (idleThread.setActive (some 2) (some 1) (some 1) (some 6))
      [ExternalOp.setActive (some 2) (some 1) (some 1) (some 6)] 3 (by decide)
      (Or.inr (by decide)) (by decide)).2.2.1,
    (onStartup_once_per_activation sampleEnv sampleEnv_keepsState idleThread
      (idleThread.setActive (some 2) (some 1) (some 1) (some 6))
      [ExternalOp.setActive (some 2) (some 1) (some 1) (some 6)] 3 (by decide)
      (Or.inr (by decide)) (by decide)).2.2.2.1⟩

/-! ## The script path -/

/-- C8: when the before-script-execution callback returns a pointer that is not nil, the
buffer is the script name of the record as the callback leaves it, followed by one zero
byte: its length is one more, its last byte is 0 and its first bytes are the script
name, whatever bytes that holds.  That script name is the one left by the
`beforeScriptExecution` hook, which is the last call the callback made. -/
theorem before_script_execution_path (env : HookEnv) (thread : phpThread)
    (ops : List ExternalOp) (buf : List UInt8)
    (h : (go_frankenphp_before_script_execution env thread ops).completion
      = Completion.returned (some buf)) :
    buf = (go_frankenphp_before_script_execution env thread ops).thread.scriptName ++ [0] ∧
      buf.length
        = (go_frankenphp_before_script_execution env thread ops).thread.scriptName.length + 1 ∧
      buf.getLast? = some 0 ∧
      buf.take (go_frankenphp_before_script_execution env thread ops).thread.scriptName.length
        = (go_frankenphp_before_script_execution env thread ops).thread.scriptName ∧
      ∃ hook seen pre,
        (go_frankenphp_before_script_execution env thread ops).calls
          = pre ++ [⟨CallSite.beforeBeforeScriptExecution, HookFn.supplied hook, none,
              seen⟩] ∧
        (go_frankenphp_before_script_execution env thread ops).thread.scriptName
          = (env.run hook seen).scriptName := by
  rcases before_cases env thread ops with ⟨w, _, hb⟩ | ⟨w, _, hw⟩
  · rw [hb] at h; cases h
  · rw [hw] at h ⊢
    rcases awake_cases env w with h1 | h1 | ⟨hook, h1⟩
    · rw [h1] at h; cases h
    · rw [h1] at h; cases h
    · rw [h1] at h ⊢
      simp only [Completion.returned.injEq, Option.some.injEq] at h
      subst h
      refine ⟨by rw [Pin_scriptName], by simp [Pin_scriptName], by simp,
        by simp [Pin_scriptName], ?_⟩
      exact ⟨hook, _, _, rfl, Pin_scriptName _ _ _⟩

/-- C8, witness: `idleThread` with hook 1 as `beforeScriptExecution`, set `Active`; its
script name is empty on entry and hook 1 assigns "/a.php". -/
theorem before_script_execution_path_witness :
    (go_frankenphp_before_script_execution sampleEnv
        ({ idleThread with beforeScriptExecution := some 1 } : phpThread)
        [ExternalOp.set stateActive]).completion
        = Completion.returned (some [47, 97, 46, 112, 104, 112, 0]) ∧
      ([47, 97, 46, 112, 104, 112, 0] : List UInt8).getLast? = some 0 :=
  ⟨by decide,
    (before_script_execution_path sampleEnv
      ({ idleThread with beforeScriptExecution := some 1 } : phpThread)
      [ExternalOp.set stateActive] [47, 97, 46, 112, 104, 112, 0] (by decide)).2.2.1⟩

/-! ## Scripts run in `Ready` only -/

/-- C9: with hooks that do not set the state, and for every record the callback is
entered on, every hook call of the before-script-execution callback (the `onStartup`
call, the calls its closure makes, the `beforeScriptExecution` call) sees the state
`Ready`, and when the callback returns a script path the state is `Ready`. -/
theorem before_script_execution_runs_ready (env : HookEnv) (hst : env.keepsState)
    (thread : phpThread) (ops : List ExternalOp) :
    (∀ c ∈ (go_frankenphp_before_script_execution env thread ops).calls,
        c.seen.state.currentState = stateReady) ∧
      ∀ buf, (go_frankenphp_before_script_execution env thread ops).completion
          = Completion.returned (some buf) →
        (go_frankenphp_before_script_execution env thread ops).thread.state.currentState
          = stateReady := by
  rcases before_cases env thread ops with ⟨w, _, hb⟩ | ⟨w, _, hw⟩
  · rw [hb]
    refine ⟨fun c hc => (by cases hc), ?_⟩
    intro buf h; cases h
  · rw [hw]
    rcases awake_cases env w with h1 | h1 | ⟨hook, h1⟩
    · rw [h1]
      refine ⟨fun c hc => (by cases hc), ?_⟩
      intro buf h; cases h
    · rw [h1]
      refine ⟨startUp_seen env hst w, ?_⟩
      intro buf h; cases h
    · rw [h1]
      refine ⟨?_, ?_⟩
      · intro c hc
        rcases List.mem_append.mp hc with hc | hc
        · exact startUp_seen env hst w c hc
        · rw [List.mem_singleton] at hc
          subst hc
          exact startUp_state env hst w
      · intro buf _
        simp only [Pin_state]
        rw [hst]
        exact startUp_state env hst w

/-- C9, witness: the callback entered on `idleThread` and woken by `setActive`. -/
theorem before_script_execution_runs_ready_witness :
    sampleEnv.keepsState ∧
      (go_frankenphp_before_script_execution sampleEnv idleThread
          [ExternalOp.setActive (some 2) (some 1) (some 1) (some 6)]).thread.state.currentState
        = stateReady :=
  ⟨sampleEnv_keepsState,
    (before_script_execution_runs_ready sampleEnv sampleEnv_keepsState idleThread
      [ExternalOp.setActive (some 2) (some 1) (some 1) (some 6)]).2
      [47, 97, 46, 112, 104, 112, 0] (by decide)⟩

/-! ## The shutdown callback -/

/-- C11: for every record, whatever its state, the on-thread-shutdown callback first
releases all pins (the record the hook is called on, or the final record when there is
no hook, holds none of the entries pinned on entry), then calls the hook of the
`onShutdown` slot exactly once if there is one and nothing otherwise, and returns with
the state `Done`, whatever the hook did to the state. -/
theorem on_thread_shutdown_effect (env : HookEnv) (thread : phpThread) :
    go_frankenphp_on_thread_shutdown env thread
        = ⟨(env.runOpt thread.onShutdown thread.Unpin).setState stateDone,
            (match thread.onShutdown with
              | some h => [⟨CallSite.shutdownOnShutdown, HookFn.supplied h, none,
                  thread.Unpin⟩]
              | none => []),
            Completion.returned ()⟩ ∧
      thread.Unpin.pinned = [] ∧
      thread.Unpin.onShutdown = thread.onShutdown ∧
      (thread.onShutdown = none →
        (go_frankenphp_on_thread_shutdown env thread).thread.pinned = []) ∧
      (go_frankenphp_on_thread_shutdown env thread).thread.state.currentState = stateDone := by
  refine ⟨?_, rfl, rfl, ?_, rfl⟩
  · cases h : thread.onShutdown <;>
      simp [go_frankenphp_on_thread_shutdown, phpThread.Unpin, callOf, h]
  · intro h
    simp [go_frankenphp_on_thread_shutdown, phpThread.Unpin, HookEnv.runOpt, h,
      phpThread.setState]

theorem sampleEnv_statusKeepsState : sampleEnv.statusKeepsState := by
  intro h status t
  simp only [sampleEnv]
  split <;> rfl

/-- C12: on a thread whose state is `ShuttingDown`, the on-thread-startup callback, the
before-script-execution callback and the after-script-execution callback (for every exit
status, with an `afterScriptExecution` hook that does not set the state) all leave the
state `ShuttingDown`; the on-thread-shutdown callback leaves the state `Done`. -/
theorem shutting_down_preserved (env : HookEnv) (hst : env.statusKeepsState)
    (thread : phpThread) (ops : List ExternalOp) (exitStatus : Int)
    (h : thread.state.currentState = stateShuttingDown) :
    (go_frankenphp_on_thread_startup thread).state.currentState = stateShuttingDown ∧
      (go_frankenphp_before_script_execution env thread ops).thread.state.currentState
        = stateShuttingDown ∧
      (go_frankenphp_after_script_execution env thread exitStatus).thread.state.currentState
        = stateShuttingDown ∧
      (go_frankenphp_on_thread_shutdown env thread).thread.state.currentState = stateDone := by
  refine ⟨?_, ?_, ?_, rfl⟩
  · simp [go_frankenphp_on_thread_startup, phpThread.setInactive, threadStateHandler.is, h]
  · simp [go_frankenphp_before_script_execution, beforeScriptAwake, threadStateHandler.is, h]
  · unfold go_frankenphp_after_script_execution
    by_cases he : exitStatus < 0
    · simp [he, h]
    · cases hs : thread.afterScriptExecution with
      | none => simp [he, hs, phpThread.Unpin, h]
      | some k =>
        simp only [he, if_false, phpThread.Unpin]
        show (env.runStatus k exitStatus thread).state.currentState = stateShuttingDown
        rw [hst, h]

/-- C12, witness: `stoppingThread`, whose `afterScriptExecution` is hook 1, with exit
status 0. -/
theorem shutting_down_preserved_witness :
    sampleEnv.statusKeepsState ∧
      stoppingThread.state.currentState = stateShuttingDown ∧
      (go_frankenphp_after_script_execution sampleEnv stoppingThread 0).thread.state.currentState
        = stateShuttingDown :=
  ⟨sampleEnv_statusKeepsState, by decide,
    (shutting_down_preserved sampleEnv sampleEnv_statusKeepsState stoppingThread [] 0
      (by decide)).2.2.1⟩

/-! ## The mode switch and shutdown -/

/-- C13 (the code at the failing input): on `stoppingThread`, whose state is
`ShuttingDown`, `setActive` leaves the state `Active`, and the before-script-execution
callback that follows does not return nil: it calls hooks and returns a script path. -/
theorem setActive_overrides_shutting_down :
    stoppingThread.state.currentState = stateShuttingDown ∧
      (stoppingThread.setActive none (some 1) (some 1) none).state.currentState
        = stateActive ∧
      (go_frankenphp_before_script_execution sampleEnv
          (stoppingThread.setActive none (some 1) (some 1) none) []).completion
        = Completion.returned (some (samplePath ++ [0])) ∧
      stoppingThread.setInactive.state.currentState = stateShuttingDown := by
  decide

/-! ## The active request -/

/-- C14: `getActiveRequest` returns `workerRequest` when it is not nil, whatever
`mainRequest` is, and `mainRequest` otherwise, which is nil when both are nil.  It
computes a value only: the record is not changed. -/
theorem getActiveRequest_value (thread : phpThread) :
    thread.getActiveRequest
        = (match thread.workerRequest with
            | some w => some w
            | none => thread.mainRequest) ∧
      (∀ w, thread.workerRequest = some w → thread.getActiveRequest = some w) ∧
      (thread.workerRequest = none → thread.getActiveRequest = thread.mainRequest) ∧
      (thread.workerRequest = none → thread.mainRequest = none →
        thread.getActiveRequest = none) := by
  unfold phpThread.getActiveRequest
  cases h : thread.workerRequest <;> simp

/-! ## The stop sentinel and the empty script name -/

theorem before_eq_awake (env : HookEnv) (thread woken : phpThread) (ops : List ExternalOp)
    (hw : (thread.state.currentState ≠ stateInactive ∧ woken = thread) ∨
      (thread.state.currentState = stateInactive ∧
        thread.waitFor stateActive stateShuttingDown ops = some woken)) :
    go_frankenphp_before_script_execution env thread ops = beforeScriptAwake env woken := by
  rcases hw with ⟨hn, rfl⟩ | ⟨hi, hw⟩
  · simp [go_frankenphp_before_script_execution, threadStateHandler.is, hn]
  · simp [go_frankenphp_before_script_execution, threadStateHandler.is, hi, hw]

/-- C15: let `woken` be the record at the check that follows the optional wait (the
record on entry when the state is not `Inactive`, the record at the wake-up otherwise).
The before-script-execution callback returns nil exactly when the state of `woken` is
`ShuttingDown`.  In every other state (`Active`, `Ready`, `Done`), when the
`beforeScriptExecution` hook called at line 125 is not nil, the callback returns a
pointer that is not nil, to a buffer that is never empty: with an empty script name it
is the one byte 0.  The hook called at line 125 is the one of the slot on entry when the
thread is `Ready` or has no `onStartup`. -/
theorem before_script_execution_nil_iff (env : HookEnv) (thread woken : phpThread)
    (ops : List ExternalOp)
    (hw : (thread.state.currentState ≠ stateInactive ∧ woken = thread) ∨
      (thread.state.currentState = stateInactive ∧
        thread.waitFor stateActive stateShuttingDown ops = some woken)) :
    ((go_frankenphp_before_script_execution env thread ops).completion
          = Completion.returned none ↔
        woken.state.currentState = stateShuttingDown) ∧
      (woken.state.currentState ≠ stateShuttingDown →
        (startUp env woken).1.beforeScriptExecution ≠ none →
        ∃ buf, (go_frankenphp_before_script_execution env thread ops).completion
            = Completion.returned (some buf) ∧
          buf = (go_frankenphp_before_script_execution env thread ops).thread.scriptName
            ++ [0] ∧
          buf ≠ [] ∧
          ((go_frankenphp_before_script_execution env thread ops).thread.scriptName = [] →
            buf = [0])) ∧
      (woken.state.currentState = stateReady ∨ woken.onStartup = none →
        (startUp env woken).1.beforeScriptExecution = woken.beforeScriptExecution) := by
  refine ⟨?_, ?_, ?_⟩
  rotate_left 2
  · intro h
    by_cases hr : woken.state.currentState = stateReady
    · rw [startUp_of_ready env woken hr]
    · rcases h with h | h
      · exact absurd h hr
      · rw [startUp_of_not_ready env woken hr, h]
        rfl
  all_goals rw [before_eq_awake env thread woken ops hw]
  all_goals by_cases hs : woken.state.currentState = stateShuttingDown
  · refine ⟨fun _ => hs, fun _ => ?_⟩
    simp [beforeScriptAwake, threadStateHandler.is, hs]
  · have hawake : beforeScriptAwake env woken
        = scriptHook env (startUp env woken).1 (startUp env woken).2 := by
      simp [beforeScriptAwake, threadStateHandler.is, hs]
    rw [hawake]
    refine ⟨fun h => ?_, fun h => absurd h hs⟩
    exfalso
    cases hb : (startUp env woken).1.beforeScriptExecution with
    | none => rw [scriptHook_none env _ _ hb] at h; cases h
    | some k => rw [scriptHook_some env _ _ k hb] at h; cases h
  · exact fun hn => absurd hs hn
  · have hawake : beforeScriptAwake env woken
        = scriptHook env (startUp env woken).1 (startUp env woken).2 := by
      simp [beforeScriptAwake, threadStateHandler.is, hs]
    rw [hawake]
    intro _ hb
    obtain ⟨k, hk⟩ := Option.ne_none_iff_exists'.mp hb
    rw [scriptHook_some env _ _ k hk]
    simp only [Pin_scriptName]
    refine ⟨_, rfl, rfl, by simp, fun he => ?_⟩
    rw [he]
    rfl

/-- C15, witness: a thread set `Active` whose `beforeScriptExecution` is hook 6, which
leaves the script name empty: the callback returns a pointer to the one byte 0. -/
theorem before_script_execution_nil_iff_witness :
    ((({ idleThread with beforeScriptExecution := some 6, state := ⟨stateActive⟩ }
          : phpThread).state.currentState ≠ stateInactive ∧
        ({ idleThread with beforeScriptExecution := some 6, state := ⟨stateActive⟩ }
          : phpThread)
          = { idleThread with beforeScriptExecution := some 6, state := ⟨stateActive⟩ }) ∨
      (({ idleThread with beforeScriptExecution := some 6, state := ⟨stateActive⟩ }
          : phpThread).state.currentState = stateInactive ∧
        ({ idleThread with beforeScriptExecution := some 6, state := ⟨stateActive⟩ }
          : phpThread).waitFor stateActive stateShuttingDown []
          = some { idleThread with beforeScriptExecution := some 6,
                                   state := ⟨stateActive⟩ })) ∧
      (go_frankenphp_before_script_execution sampleEnv
          { idleThread with beforeScriptExecution := some 6, state := ⟨stateActive⟩ }
          []).completion
        = Completion.returned (some [0]) ∧
      ¬ ((go_frankenphp_before_script_execution sampleEnv
          { idleThread with beforeScriptExecution := some 6, state := ⟨stateActive⟩ }
          []).completion
        = Completion.returned none) :=
  ⟨by decide, by decide,
    fun h => absurd
      ((before_script_execution_nil_iff sampleEnv
        { idleThread with beforeScriptExecution := some 6, state := ⟨stateActive⟩ }
        { idleThread with beforeScriptExecution := some 6, state := ⟨stateActive⟩ }
        [] (by decide)).1.mp h)
      (by decide)⟩

/-! ## The buffer as a C string -/

theorem beforeZero_nil : beforeZero [] = [] := rfl

theorem beforeZero_cons_zero (s : List UInt8) : beforeZero (0 :: s) = [] := by
  simp [beforeZero, List.takeWhile]

theorem beforeZero_cons_ne (c : UInt8) (s : List UInt8) (h : c ≠ 0) :
    beforeZero (c :: s) = c :: beforeZero s := by
  simp [beforeZero, List.takeWhile, h]

theorem cString_cons_zero (s : List UInt8) : cString (0 :: s) = some [] := by
  simp [cString]

theorem cString_cons_ne (c : UInt8) (s : List UInt8) (h : c ≠ 0) :
    cString (c :: s) = (cString s).map (fun r => c :: r) := by
  simp [cString, h]

/-- A buffer that ends with the terminator reads as the bytes before the first zero. -/
theorem cString_append_zero (s : List UInt8) : cString (s ++ [0]) = some (beforeZero s) := by
  induction s with
  | nil => exact cString_cons_zero []
  | cons c s ih =>
    by_cases h : c = 0
    · subst h
      rw [List.cons_append, cString_cons_zero, beforeZero_cons_zero]
    · rw [List.cons_append, cString_cons_ne c _ h, ih, beforeZero_cons_ne c _ h]
      rfl

/-- A buffer without a zero byte is not a C string. -/
theorem cString_none_of_no_zero (s : List UInt8) (h : (0 : UInt8) ∉ s) : cString s = none := by
  induction s with
  | nil => rfl
  | cons c s ih =>
    have hc : c ≠ 0 := fun e => h (by rw [e]; exact List.mem_cons_self _ _)
    have hs : (0 : UInt8) ∉ s := fun e => h (List.mem_cons_of_mem _ e)
    rw [cString_cons_ne c _ hc, ih hs]
    rfl

theorem beforeZero_eq_self_iff (s : List UInt8) : beforeZero s = s ↔ (0 : UInt8) ∉ s := by
  induction s with
  | nil => simp [beforeZero_nil]
  | cons c s ih =>
    by_cases h : c = 0
    · subst h
      rw [beforeZero_cons_zero]
      simp
    · have h' : ¬ (0 : UInt8) = c := fun e => h e.symm
      rw [beforeZero_cons_ne c _ h]
      simp [h', ih]

theorem beforeZero_split (s : List UInt8) (h : (0 : UInt8) ∈ s) :
    ∃ rest, s = beforeZero s ++ 0 :: rest := by
  induction s with
  | nil => cases h
  | cons c s ih =>
    by_cases hc : c = 0
    · subst hc
      exact ⟨s, by rw [beforeZero_cons_zero]; rfl⟩
    · have hmem : (0 : UInt8) ∈ s := by
        rcases List.mem_cons.mp h with e | e
        · exact absurd e.symm hc
        · exact e
      obtain ⟨rest, hrest⟩ := ih hmem
      refine ⟨rest, ?_⟩
      rw [beforeZero_cons_ne c _ hc, List.cons_append, ← hrest]

theorem beforeZero_no_zero (s : List UInt8) : (0 : UInt8) ∉ beforeZero s := by
  induction s with
  | nil => simp [beforeZero_nil]
  | cons c s ih =>
    by_cases h : c = 0
    · subst h
      rw [beforeZero_cons_zero]
      simp
    · have h' : ¬ (0 : UInt8) = c := fun e => h e.symm
      rw [beforeZero_cons_ne c _ h]
      simp [h', ih]

/-- C16: for every string `s`, the buffer of `pinCString s` is `s` followed by one zero
byte, so it holds a zero byte and reads as a C string: the read yields some `r` with no
zero byte in it.  `r` is `s` itself exactly when `s` has no zero byte; when `s` has a zero
byte, `r` is the part of `s` before its first zero byte and is strictly shorter than
`s`.  The terminator is what makes the read end in the first case: the bytes of a
zero-free `s` alone are not a C string. -/
theorem pinCString_cString (thread : phpThread) (s : List UInt8) :
    (thread.pinCString s).2 = s ++ [0] ∧
      (0 : UInt8) ∈ (thread.pinCString s).2 ∧
      ∃ r, cString (thread.pinCString s).2 = some r ∧
        (0 : UInt8) ∉ r ∧
        (r = s ↔ (0 : UInt8) ∉ s) ∧
        ((0 : UInt8) ∈ s → (∃ rest, s = r ++ 0 :: rest) ∧ r.length < s.length) ∧
        ((0 : UInt8) ∉ s → cString s = none ∧ (thread.pinCString s).2 = r ++ [0]) := by
  have hbuf : (thread.pinCString s).2 = s ++ [0] := rfl
  refine ⟨hbuf, by rw [hbuf]; simp, beforeZero s, ?_, beforeZero_no_zero s,
    beforeZero_eq_self_iff s, fun h => ?_, fun h => ?_⟩
  · rw [hbuf, cString_append_zero]
  · obtain ⟨rest, hrest⟩ := beforeZero_split s h
    refine ⟨⟨rest, hrest⟩, ?_⟩
    have hlen := congrArg List.length hrest
    simp only [List.length_append, List.length_cons] at hlen
    omega
  · refine ⟨cString_none_of_no_zero s h, ?_⟩
    rw [hbuf, (beforeZero_eq_self_iff s).mpr h]

/-! ## Two mode switches in a row -/

theorem setActive_setActive (thread : phpThread) (s1 b1 a1 d1 s2 b2 a2 d2 : Option HookId) :
    (thread.setActive s1 b1 a1 d1).setActive s2 b2 a2 d2 = thread.setActive s2 b2 a2 d2 :=
  rfl

theorem runOpt_slots (env : HookEnv) (hook : Option HookId) (hk : env.keepsHooks hook)
    (t : phpThread) :
    (env.runOpt hook t).onStartup = t.onStartup ∧
      (env.runOpt hook t).beforeScriptExecution = t.beforeScriptExecution ∧
      (env.runOpt hook t).afterScriptExecution = t.afterScriptExecution ∧
      (env.runOpt hook t).onShutdown = t.onShutdown := by
  cases hook with
  | none => exact ⟨rfl, rfl, rfl, rfl⟩
  | some h => exact hk h rfl t

theorem scriptHook_thread (env : HookEnv) (t : phpThread) (calls : List Call) :
    (scriptHook env t calls).thread
        = (env.runOpt t.beforeScriptExecution t).Pin
            (Pinned.stringData ((env.runOpt t.beforeScriptExecution t).scriptName ++ [0]))
            (decide ((env.runOpt t.beforeScriptExecution t).scriptName ≠ [])) ∨
      (t.beforeScriptExecution = none ∧ (scriptHook env t calls).thread = t) := by
  cases hb : t.beforeScriptExecution with
  | none => exact Or.inr ⟨rfl, by rw [scriptHook_none env t calls hb]⟩
  | some h => exact Or.inl (by rw [scriptHook_some env t calls h hb]; rfl)

theorem scriptHook_calls (env : HookEnv) (t : phpThread) (calls : List Call) :
    (scriptHook env t calls).calls
      = calls ++ callOf CallSite.beforeBeforeScriptExecution t.beforeScriptExecution t := by
  cases hb : t.beforeScriptExecution with
  | none => rw [scriptHook_none env t calls hb]; simp [callOf]
  | some h => rw [scriptHook_some env t calls h hb]; rfl

/-! ## The mode switch at the next callback -/

theorem runOpt_eq_elim (env : HookEnv) (hook : Option HookId) (t : phpThread) :
    env.runOpt hook t = hook.elim t (fun h => env.run h t) := by
  cases hook <;> rfl

theorem callOf_eq_toList (site : CallSite) (hook : Option HookId) (seen : phpThread) :
    callOf site hook seen
      = (hook.map (fun h => (⟨site, HookFn.supplied h, none, seen⟩ : Call))).toList := by
  cases hook <;> rfl

/-- C5 (as stated, refuted): `busyThread` is switched to the hooks 4, 1, 1, 6, where the
startup hook 4 itself assigns the `beforeScriptExecution` slot (to hook 9).  In the next
before-script-execution callback the closure installs hook 1 as `b` and calls hook 4,
and the call at line 125 that follows is a call of hook 9, not of the new `b`. -/
theorem setActive_startup_hook_reassigns_before :
    ((go_frankenphp_before_script_execution unrulyEnv
          (busyThread.setActive (some 4) (some 1) (some 1) (some 6)) []).calls.map
        (fun c => (c.site, c.fn)))
      = [(CallSite.beforeOnStartup, HookFn.indirect (some 4) (some 1) (some 1) (some 6)),
          (CallSite.closureOnShutdown, HookFn.supplied 6),
          (CallSite.closureOnStartup, HookFn.supplied 4),
          (CallSite.beforeBeforeScriptExecution, HookFn.supplied 9)] ∧
      HookFn.supplied 9 ≠ HookFn.supplied 1 := by
  decide

/-- C5 (amended): after `setActive s b a d`, with a startup hook `s` that does not itself
assign the `beforeScriptExecution` slot, the next before-script-execution callback makes,
at line 120, one call of the closure installed by `setActive`; the closure calls the
shutdown hook that the thread had (if any) once, on the record `ready` whose slots are
still the old ones; then the four slots are exactly `s`, `b`, `a`, `d` (`swapped`); then
the closure calls `s` (if any) once, on the record with the new slots; the call at line
125 that follows is a call of `b`, on the record that `s` left (`started`), and the
callback returns the script path (it panics on the nil function call when `b` is nil).
These are all the calls. -/
theorem setActive_then_before_script_execution (env : HookEnv) (thread : phpThread)
    (s b a d : Option HookId) (ops : List ExternalOp)
    (hs : env.startupKeepsBefore s) :
    let ready : phpThread :=
      { thread with onStartup := some (HookFn.indirect s b a d), state := ⟨stateReady⟩ }
    let old : phpThread := thread.onShutdown.elim ready (fun h => env.run h ready)
    let swapped : phpThread :=
      { old with onStartup := s.map HookFn.supplied, beforeScriptExecution := b,
                 afterScriptExecution := a, onShutdown := d }
    let started : phpThread := s.elim swapped (fun h => env.run h swapped)
    (go_frankenphp_before_script_execution env (thread.setActive s b a d) ops).calls
        = [⟨CallSite.beforeOnStartup, HookFn.indirect s b a d, none, ready⟩]
          ++ (thread.onShutdown.map (fun h =>
                (⟨CallSite.closureOnShutdown, HookFn.supplied h, none, ready⟩ : Call))).toList
          ++ (s.map (fun h =>
                (⟨CallSite.closureOnStartup, HookFn.supplied h, none, swapped⟩ : Call))).toList
          ++ (b.map (fun h =>
                (⟨CallSite.beforeBeforeScriptExecution, HookFn.supplied h, none, started⟩
                  : Call))).toList ∧
      (go_frankenphp_before_script_execution env (thread.setActive s b a d) ops).completion
        = b.elim (Completion.panicked PanicValue.nilFunctionCall)
            (fun h => Completion.returned (some ((env.run h started).scriptName ++ [0]))) := by
  intro ready old swapped started
  have hready : ready = (thread.setActive s b a d).setState stateReady := rfl
  have hold : old = env.runOpt thread.onShutdown ready := (runOpt_eq_elim _ _ _).symm
  have hswap : swapped = (env.runOpt thread.onShutdown ready).swapHooks s b a d := by
    rw [← hold]; rfl
  have hstart : started = env.runOpt s swapped := (runOpt_eq_elim _ _ _).symm
  have hb : started.beforeScriptExecution = b := by
    rw [hstart, runOpt_before_of_keeps env s hs]
  have h1 : (runIndirect env s b a d ready).1 = started := by
    rw [runIndirect_fst, hstart, hswap]
  have h2 : (runIndirect env s b a d ready).2
      = callOf CallSite.closureOnShutdown thread.onShutdown ready
        ++ callOf CallSite.closureOnStartup s swapped := by
    rw [runIndirect_snd, hswap]
  have hrun : go_frankenphp_before_script_execution env (thread.setActive s b a d) ops
      = scriptHook env (runIndirect env s b a d ready).1
          (⟨CallSite.beforeOnStartup, HookFn.indirect s b a d, none, ready⟩ ::
            (runIndirect env s b a d ready).2) := rfl
  rw [hrun, h1, h2]
  refine ⟨?_, ?_⟩
  · rw [scriptHook_calls, hb, callOf_eq_toList, callOf_eq_toList, callOf_eq_toList]
    simp
  · cases b with
    | none => rw [scriptHook_none env _ _ hb]; rfl
    | some h => rw [scriptHook_some env _ _ h hb]; rfl

/-- C5, witness: `busyThread` (shutdown hook 6) is switched to the hooks 2, 1, 1, 6; hook 2
pins an object and leaves the slots alone. -/
theorem setActive_then_before_script_execution_witness :
    sampleEnv.startupKeepsBefore (some 2) ∧
      (go_frankenphp_before_script_execution sampleEnv
          (busyThread.setActive (some 2) (some 1) (some 1) (some 6)) []).completion
        = Completion.returned (some (samplePath ++ [0])) :=
  ⟨by
      intro h hh t
      cases hh
      simp [sampleEnv, phpThread.Pin],
    by
      have := (setActive_then_before_script_execution sampleEnv busyThread
        (some 2) (some 1) (some 1) (some 6) [] (by
          intro h hh t
          cases hh
          simp [sampleEnv, phpThread.Pin])).2
      simpa [sampleEnv] using this⟩

/-- C17 (as stated, refuted): `busyThread` is switched to the hooks 3, 4, 5, 8 and then to
the hooks 7, 1, 1, 6, where the startup hook 7 itself assigns the `onStartup` slot (to
hook 77).  After the next before-script-execution callback the `onStartup` slot holds
hook 77, not `s2`. -/
theorem setActive_twice_startup_hook_reassigns :
    (go_frankenphp_before_script_execution unrulyEnv
        ((busyThread.setActive (some 3) (some 4) (some 5) (some 8)).setActive
          (some 7) (some 1) (some 1) (some 6)) []).thread.onStartup
      = some (HookFn.supplied 77) ∧
      (go_frankenphp_before_script_execution unrulyEnv
        ((busyThread.setActive (some 3) (some 4) (some 5) (some 8)).setActive
          (some 7) (some 1) (some 1) (some 6)) []).thread.onStartup
      ≠ some (HookFn.supplied 7) := by
  decide

/-- C17 (amended): when `setActive s1 b1 a1 d1` and then `setActive s2 b2 a2 d2` are
called before the next before-script-execution callback, the record is the one that the
second call alone leaves, so nothing of `s1`, `b1`, `a1`, `d1` is kept.  With hooks `s2`
and `b2` that do not themselves assign a hook slot, the callback calls the closure of
the second `setActive` once, which calls the shutdown hook the thread had (if any) once,
assigns exactly `s2`, `b2`, `a2`, `d2` and calls `s2` (if any) once; then `b2` is
called, and these are all the calls.  The record the callback leaves holds `s2` in the
`onStartup` slot, not the closure, and `b2`, `a2`, `d2` in the others; a later startup
of that record makes no call from the closure: the shutdown hook is not run again. -/
theorem setActive_twice (env : HookEnv) (thread : phpThread)
    (s1 b1 a1 d1 s2 b2 a2 d2 : Option HookId) (ops : List ExternalOp)
    (hs : env.keepsHooks s2) (hb : env.keepsHooks b2) :
    let entered : phpThread := (thread.setActive s1 b1 a1 d1).setActive s2 b2 a2 d2
    let ready : phpThread :=
      { thread with onStartup := some (HookFn.indirect s2 b2 a2 d2), state := ⟨stateReady⟩ }
    let old : phpThread := thread.onShutdown.elim ready (fun h => env.run h ready)
    let swapped : phpThread :=
      { old with onStartup := s2.map HookFn.supplied, beforeScriptExecution := b2,
                 afterScriptExecution := a2, onShutdown := d2 }
    let started : phpThread := s2.elim swapped (fun h => env.run h swapped)
    entered
        = { thread with onStartup := some (HookFn.indirect s2 b2 a2 d2),
                        state := ⟨stateActive⟩ } ∧
      (go_frankenphp_before_script_execution env entered ops).calls
        = [⟨CallSite.beforeOnStartup, HookFn.indirect s2 b2 a2 d2, none, ready⟩]
          ++ (thread.onShutdown.map (fun h =>
                (⟨CallSite.closureOnShutdown, HookFn.supplied h, none, ready⟩ : Call))).toList
          ++ (s2.map (fun h =>
                (⟨CallSite.closureOnStartup, HookFn.supplied h, none, swapped⟩ : Call))).toList
          ++ (b2.map (fun h =>
                (⟨CallSite.beforeBeforeScriptExecution, HookFn.supplied h, none, started⟩
                  : Call))).toList ∧
      ((go_frankenphp_before_script_execution env entered ops).thread.onStartup
          = s2.map HookFn.supplied ∧
        (go_frankenphp_before_script_execution env entered ops).thread.beforeScriptExecution
          = b2 ∧
        (go_frankenphp_before_script_execution env entered ops).thread.afterScriptExecution
          = a2 ∧
        (go_frankenphp_before_script_execution env entered ops).thread.onShutdown = d2) ∧
      (startUp env ((go_frankenphp_before_script_execution env entered ops).thread.setState
            stateActive)).2
        = (s2.map (fun h =>
            (⟨CallSite.beforeOnStartup, HookFn.supplied h, none,
              (go_frankenphp_before_script_execution env entered ops).thread.setState
                stateReady⟩ : Call))).toList := by
  intro entered ready old swapped started
  have hold : old = env.runOpt thread.onShutdown ready := (runOpt_eq_elim _ _ _).symm
  have hswap : swapped = (env.runOpt thread.onShutdown ready).swapHooks s2 b2 a2 d2 := by
    rw [← hold]; rfl
  have hstart : started = env.runOpt s2 swapped := (runOpt_eq_elim _ _ _).symm
  have h1 : (runIndirect env s2 b2 a2 d2 ready).1 = started := by
    rw [runIndirect_fst, hstart, hswap]
  have h2 : (runIndirect env s2 b2 a2 d2 ready).2
      = callOf CallSite.closureOnShutdown thread.onShutdown ready
        ++ callOf CallSite.closureOnStartup s2 swapped := by
    rw [runIndirect_snd, hswap]
  have hrun : go_frankenphp_before_script_execution env entered ops
      = scriptHook env (runIndirect env s2 b2 a2 d2 ready).1
          (⟨CallSite.beforeOnStartup, HookFn.indirect s2 b2 a2 d2, none, ready⟩ ::
            (runIndirect env s2 b2 a2 d2 ready).2) := rfl
  rw [h1, h2] at hrun
  obtain ⟨hs1, hs2, hs3, hs4⟩ := runOpt_slots env s2 hs swapped
  rw [← hstart] at hs1 hs2 hs3 hs4
  have hst : started.onStartup = s2.map HookFn.supplied ∧ started.beforeScriptExecution = b2 ∧
      started.afterScriptExecution = a2 ∧ started.onShutdown = d2 :=
    ⟨hs1, hs2, hs3, hs4⟩
  have hfin : (go_frankenphp_before_script_execution env entered ops).thread.onStartup
        = s2.map HookFn.supplied ∧
      (go_frankenphp_before_script_execution env entered ops).thread.beforeScriptExecution
        = b2 ∧
      (go_frankenphp_before_script_execution env entered ops).thread.afterScriptExecution
        = a2 ∧
      (go_frankenphp_before_script_execution env entered ops).thread.onShutdown = d2 := by
    rw [hrun]
    rcases scriptHook_thread env started _ with h | ⟨_, h⟩
    · rw [h]
      have hk : env.keepsHooks started.beforeScriptExecution := by rw [hst.2.1]; exact hb
      obtain ⟨k1, k2, k3, k4⟩ := runOpt_slots env _ hk started
      obtain ⟨p1, p2, p3, p4⟩ := Pin_slots (env.runOpt started.beforeScriptExecution started)
        (Pinned.stringData
          ((env.runOpt started.beforeScriptExecution started).scriptName ++ [0]))
        (decide ((env.runOpt started.beforeScriptExecution started).scriptName ≠ []))
      exact ⟨p1.trans (k1.trans hst.1), p2.trans (k2.trans hst.2.1),
        p3.trans (k3.trans hst.2.2.1), p4.trans (k4.trans hst.2.2.2)⟩
    · rw [h]; exact hst
  refine ⟨rfl, ?_, hfin, ?_⟩
  · rw [hrun, scriptHook_calls, hst.2.1, callOf_eq_toList, callOf_eq_toList,
      callOf_eq_toList]
    simp
  · rw [startUp_of_not_ready env _ (by show stateActive ≠ stateReady; decide)]
    have hslot : ((go_frankenphp_before_script_execution env entered ops).thread.setState
        stateActive).onStartup = s2.map HookFn.supplied := hfin.1
    rw [hslot]
    cases s2 with
    | none => rfl
    | some h => rfl

theorem sampleEnv_keepsHooks (hook : Option HookId) : sampleEnv.keepsHooks hook := by
  intro h _ t
  simp only [sampleEnv]
  split
  · exact ⟨rfl, rfl, rfl, rfl⟩
  · split <;> exact ⟨rfl, rfl, rfl, rfl⟩

/-- C17, witness: `busyThread` (shutdown hook 6) is switched to the hooks 3, 4, 5, 8 and
then to the hooks 2, 1, 1, 6 before its next callback. -/
theorem setActive_twice_witness :
    sampleEnv.keepsHooks (some 2) ∧ sampleEnv.keepsHooks (some 1) ∧
      (go_frankenphp_before_script_execution sampleEnv
          ((busyThread.setActive (some 3) (some 4) (some 5) (some 8)).setActive
            (some 2) (some 1) (some 1) (some 6)) []).thread.onStartup
        = some (HookFn.supplied 2) ∧
      ((go_frankenphp_before_script_execution sampleEnv
          ((busyThread.setActive (some 3) (some 4) (some 5) (some 8)).setActive
            (some 2) (some 1) (some 1) (some 6)) []).calls.map (fun c => (c.site, c.fn)))
        = [(CallSite.beforeOnStartup, HookFn.indirect (some 2) (some 1) (some 1) (some 6)),
            (CallSite.closureOnShutdown, HookFn.supplied 6),
            (CallSite.closureOnStartup, HookFn.supplied 2),
            (CallSite.beforeBeforeScriptExecution, HookFn.supplied 1)] :=
  ⟨sampleEnv_keepsHooks _, sampleEnv_keepsHooks _,
    (setActive_twice sampleEnv busyThread (some 3) (some 4) (some 5) (some 8)
      (some 2) (some 1) (some 1) (some 6) [] (sampleEnv_keepsHooks _)
      (sampleEnv_keepsHooks _)).2.2.1.1,
    by decide⟩

/-! ## Pinned memory -/

/-- C10 (as stated, refuted): (1) on a thread set `Active` whose `beforeScriptExecution`
is hook 6, which leaves the script name empty, the callback returns the buffer holding
the one byte 0 and the pin set is empty: the buffer is the string constant, for which
`Pin` registers nothing.  (2) on a thread with the object 64 pinned whose
`beforeScriptExecution` is hook 5, which releases the pins, the object 64 is no longer
pinned after the before-script-execution callback. -/
theorem before_script_execution_pin_set_gaps :
    ((go_frankenphp_before_script_execution sampleEnv
          { idleThread with beforeScriptExecution := some 6, state := ⟨stateActive⟩ }
          []).completion
        = Completion.returned (some [0]) ∧
      Pinned.stringData [0] ∉
        (go_frankenphp_before_script_execution sampleEnv
          { idleThread with beforeScriptExecution := some 6, state := ⟨stateActive⟩ }
          []).thread.pinned) ∧
      (Pinned.object 64 ∈
          ({ busyThread with pinned := [Pinned.object 64], beforeScriptExecution := some 5 }
            : phpThread).pinned ∧
        Pinned.object 64 ∉
          (go_frankenphp_before_script_execution unrulyEnv
            { busyThread with pinned := [Pinned.object 64], beforeScriptExecution := some 5 }
            []).thread.pinned) := by
  decide

/-- C10 (amended): when the before-script-execution callback returns a script path, the
pin set it leaves is the pin set left by the `beforeScriptExecution` hook followed, for
a script name that is not empty, by the returned buffer; for an empty script name the
buffer is the string constant and nothing is registered.  So a returned buffer for a
non-empty script name is in the pin set.  With supplied hooks that release no pin, the
callback (the wait inside it included) removes nothing from the pin set, and neither do
`setActive`, `setInactive`, the startup callback and `pinCString`. -/
theorem pins_kept_until_after (env : HookEnv) (hp : env.keepsPins) (thread : phpThread)
    (ops : List ExternalOp) (s b a d : Option HookId) (str : List UInt8) :
    (∀ buf, (go_frankenphp_before_script_execution env thread ops).completion
          = Completion.returned (some buf) →
        ∃ hook seen pre,
          (go_frankenphp_before_script_execution env thread ops).calls
            = pre ++ [⟨CallSite.beforeBeforeScriptExecution, HookFn.supplied hook, none,
                seen⟩] ∧
          (go_frankenphp_before_script_execution env thread ops).thread.pinned
            = (env.run hook seen).pinned ++
                (if (go_frankenphp_before_script_execution env thread ops).thread.scriptName
                    = [] then []
                  else [Pinned.stringData buf])) ∧
      (∀ buf, (go_frankenphp_before_script_execution env thread ops).completion
          = Completion.returned (some buf) →
        (go_frankenphp_before_script_execution env thread ops).thread.scriptName ≠ [] →
        Pinned.stringData buf
          ∈ (go_frankenphp_before_script_execution env thread ops).thread.pinned) ∧
      List.Sublist thread.pinned
        (go_frankenphp_before_script_execution env thread ops).thread.pinned ∧
      (thread.setActive s b a d).pinned = thread.pinned ∧
      thread.setInactive.pinned = thread.pinned ∧
      (go_frankenphp_on_thread_startup thread).pinned = thread.pinned ∧
      List.Sublist thread.pinned (thread.pinCString str).1.pinned := by
  have hin : thread.setInactive.pinned = thread.pinned := by
    unfold phpThread.setInactive
    simp only []
    split <;> rfl
  have hfirst : ∀ buf, (go_frankenphp_before_script_execution env thread ops).completion
        = Completion.returned (some buf) →
      ∃ hook seen pre,
        (go_frankenphp_before_script_execution env thread ops).calls
          = pre ++ [⟨CallSite.beforeBeforeScriptExecution, HookFn.supplied hook, none,
              seen⟩] ∧
        (go_frankenphp_before_script_execution env thread ops).thread.pinned
          = (env.run hook seen).pinned ++
              (if (go_frankenphp_before_script_execution env thread ops).thread.scriptName
                  = [] then []
                else [Pinned.stringData buf]) := by
    rcases before_cases env thread ops with ⟨w, _, hb⟩ | ⟨w, _, hw⟩
    · rw [hb]; intro buf h; cases h
    · rw [hw]
      rcases awake_cases env w with h1 | h1 | ⟨hook, h1⟩
      · rw [h1]; intro buf h; cases h
      · rw [h1]; intro buf h; cases h
      · rw [h1]
        intro buf h
        simp only [Completion.returned.injEq, Option.some.injEq] at h
        subst h
        refine ⟨hook, _, _, rfl, ?_⟩
        simp only [Pin_scriptName]
        by_cases he : (env.run hook (startUp env w).1).scriptName = []
        · simp [he, phpThread.Pin]
        · simp [he, phpThread.Pin]
  refine ⟨hfirst, ?_, ?_, rfl, hin, hin, Pin_sublist _ _ _⟩
  · intro buf h hne
    obtain ⟨hook, seen, pre, _, hpin⟩ := hfirst buf h
    rw [hpin, if_neg hne]
    simp
  · rcases before_cases env thread ops with ⟨w, hsame, hb⟩ | ⟨w, hsame, hw⟩
    · rw [hb, ← hsame.1]
    · rw [hw, ← hsame.1]
      rcases awake_cases env w with h1 | h1 | ⟨hook, h1⟩
      · rw [h1]
      · rw [h1]; exact startUp_pins env hp w
      · rw [h1]
        refine List.Sublist.trans (startUp_pins env hp w) ?_
        refine List.Sublist.trans (hp hook _) ?_
        exact Pin_sublist _ _ _

/-- C10, witness: `busyThread`, with one pinned path, is switched and the callback runs: the
old path is still pinned, and so are the object pinned by hook 2 and the new path. -/
theorem pins_kept_until_after_witness :
    sampleEnv.keepsPins ∧
      (go_frankenphp_before_script_execution sampleEnv
          (busyThread.setActive (some 2) (some 1) (some 1) (some 6)) []).thread.pinned
        = [Pinned.stringData (samplePath ++ [0]), Pinned.object 64,
            Pinned.stringData (samplePath ++ [0])] ∧
      List.Sublist (busyThread.setActive (some 2) (some 1) (some 1) (some 6)).pinned
        (go_frankenphp_before_script_execution sampleEnv
          (busyThread.setActive (some 2) (some 1) (some 1) (some 6)) []).thread.pinned :=
  ⟨sampleEnv_keepsPins, by decide,
    (pins_kept_until_after sampleEnv sampleEnv_keepsPins
      (busyThread.setActive (some 2) (some 1) (some 1) (some 6)) []
      none none none none []).2.2.1⟩

end FrankenPHP
